import Mathlib

/-!
Verification development for the media extraction core of the
mediawiki-services-mobileapps repository (lib/media.js).

The JavaScript source is shallowly embedded: DOM documents become an
inductive tree of element and text nodes, attribute values are
`Option String` (`none` = attribute absent, i.e. `getAttribute` returning
`null`), fallible JavaScript evaluation (thrown `TypeError`, `SyntaxError`
from `JSON.parse`, `URIError` from `decodeURIComponent`) becomes
`Except String`.  JavaScript numeric coercion (`ToNumber`), `parseInt`,
string splitting, JSON parsing and percent-decoding are modelled
explicitly below, following the ECMAScript semantics the source relies on.
-/

/-! ## JavaScript numbers and coercions -/

/-- A JavaScript number as needed by the source: `NaN`, the two
infinities, or a finite value `n / d` held as an exact integer
numerator over a positive power-of-ten denominator (not normalized, so
every operation is plain integer arithmetic; the source only ever
compares attribute values against the integer threshold 48 and never
does float rounding, so this is faithful on every reachable
comparison). -/
inductive JsNum where
  | nan
  | posInf
  | negInf
  | num (n : Int) (d : Nat)
deriving DecidableEq

/-- JavaScript `<` on numbers: any comparison with `NaN` is false;
finite values compare by cross multiplication (denominators are
positive). -/
def jsLtB : JsNum → JsNum → Bool
  | .nan, _ => false
  | _, .nan => false
  | .negInf, .negInf => false
  | .negInf, _ => true
  | _, .negInf => false
  | .posInf, _ => false
  | .num _ _, .posInf => true
  | .num a b, .num c d => decide (a * d < c * b)

/-- Characters trimmed by JavaScript `ToNumber` / `parseInt`
(ECMAScript WhiteSpace and LineTerminator). -/
def jsWhitespace (c : Char) : Bool :=
  c = ' ' || c = '\t' || c = '\n' || c = '\r' ||
  c = (Char.ofNat 11) || c = (Char.ofNat 12) ||
  c = (Char.ofNat 0xA0) || c = (Char.ofNat 0xFEFF) ||
  c = (Char.ofNat 0x2028) || c = (Char.ofNat 0x2029)

/-- Trim leading and trailing JS whitespace from a character list. -/
def jsTrim (cs : List Char) : List Char :=
  ((cs.dropWhile jsWhitespace).reverse.dropWhile jsWhitespace).reverse

/-- Numeric value of a decimal digit list (most significant first). -/
def digitsVal (cs : List Char) : Nat :=
  cs.foldl (fun acc c => 10 * acc + (c.toNat - '0'.toNat)) 0

/-- Hex digit value, if the character is one. -/
def hexVal (c : Char) : Option Nat :=
  if '0' ≤ c ∧ c ≤ '9' then some (c.toNat - '0'.toNat)
  else if 'a' ≤ c ∧ c ≤ 'f' then some (c.toNat - 'a'.toNat + 10)
  else if 'A' ≤ c ∧ c ≤ 'F' then some (c.toNat - 'A'.toNat + 10)
  else none

/-- Value of a hex digit list (most significant first), `none` if empty or
some character is not a hex digit. -/
def hexDigitsVal (cs : List Char) : Option Nat :=
  if cs.isEmpty then none
  else cs.foldl (fun acc c => do
    let a ← acc
    let v ← hexVal c
    pure (16 * a + v)) (some 0)

/-- Parse the optional exponent part of a decimal literal
(for `ToNumber`): empty input means exponent 0, otherwise the whole
remaining input must be an exponent clause. -/
def parseExpPart (rest : List Char) : Option Int :=
  match rest with
  | [] => some 0
  | e :: rest2 =>
    if e = 'e' ∨ e = 'E' then
      match rest2 with
      | '+' :: ds => if ds ≠ [] ∧ ds.all (·.isDigit) then some (digitsVal ds) else none
      | '-' :: ds => if ds ≠ [] ∧ ds.all (·.isDigit) then some (-(digitsVal ds : Int)) else none
      | ds => if ds ≠ [] ∧ ds.all (·.isDigit) then some (digitsVal ds) else none
    else none

/-- Assemble the exact value of a decimal literal from its integer
digits, fraction digits and exponent:
`(ip.fp) * 10^ex`, as numerator over power-of-ten denominator. -/
def decToJsNum (neg : Bool) (ip fp : List Char) (ex : Int) : JsNum :=
  let m : Int := (digitsVal ip : Int) * 10 ^ fp.length + (digitsVal fp : Int)
  let m := if neg then -m else m
  if 0 ≤ ex then .num (m * 10 ^ ex.toNat) (10 ^ fp.length)
  else .num m (10 ^ fp.length * 10 ^ (-ex).toNat)

/-- Parse an unsigned decimal literal (`StrUnsignedDecimalLiteral` without
`Infinity`): `digits [. digits] [exp]` or `. digits [exp]`, returning
the digit groups and exponent. -/
def parseUnsignedDec (cs : List Char) : Option (List Char × List Char × Int) :=
  let ip := cs.takeWhile (·.isDigit)
  let rest := cs.dropWhile (·.isDigit)
  match rest with
  | '.' :: rest2 =>
    let fp := rest2.takeWhile (·.isDigit)
    let rest3 := rest2.dropWhile (·.isDigit)
    if ip.isEmpty ∧ fp.isEmpty then none
    else do
      let e ← parseExpPart rest3
      pure (ip, fp, e)
  | _ =>
    if ip.isEmpty then none
    else do
      let e ← parseExpPart rest
      pure (ip, [], e)

/-- ECMAScript `ToNumber` applied to a string: trim, empty string is `0`,
optional sign followed by `Infinity` or a decimal literal, or an unsigned
hex/octal/binary literal; anything else is `NaN`. -/
def toNumberStr (s : String) : JsNum :=
  let cs := jsTrim s.toList
  match cs with
  | [] => .num 0 1
  | _ =>
    let signed : Bool × List Char :=
      match cs with
      | '+' :: rest => (false, rest)
      | '-' :: rest => (true, rest)
      | rest => (false, rest)
    let neg := signed.1
    let body := signed.2
    if body = "Infinity".toList then
      if neg then .negInf else .posInf
    else
      match cs with
      | '0' :: 'x' :: ds => (hexDigitsVal ds).elim .nan (fun n => .num n 1)
      | '0' :: 'X' :: ds => (hexDigitsVal ds).elim .nan (fun n => .num n 1)
      | _ =>
        match parseUnsignedDec body with
        | some (ip, fp, e) => decToJsNum neg ip fp e
        | none => .nan

/-- `ToNumber` of an attribute value: `getAttribute` returning `null`
coerces to `+0`. -/
def toNumberAttr (a : Option String) : JsNum :=
  match a with
  | none => .num 0 1
  | some s => toNumberStr s

/-- JavaScript `x < n` where `x` is a string-or-null attribute value and
`n` a number literal: both sides pass through `ToNumber`; `NaN` makes the
comparison false. -/
def jsLtNat (a : Option String) (n : Nat) : Bool :=
  jsLtB (toNumberAttr a) (.num n 1)

/-- Core of JavaScript `parseInt(s, 10)`: trim, optional sign, longest
prefix of decimal digits; `none` models `NaN` (no digits at all). -/
def parseIntCore (s : String) : Option Int :=
  let cs := (s.toList).dropWhile jsWhitespace
  let signed : Bool × List Char :=
    match cs with
    | '+' :: rest => (false, rest)
    | '-' :: rest => (true, rest)
    | rest => (false, rest)
  let ds := signed.2.takeWhile (·.isDigit)
  if ds.isEmpty then none
  else some (if signed.1 then -(digitsVal ds : Int) else (digitsVal ds : Int))

/-- `parseInt(attr, 10)` on an attribute value: a `null` attribute is
coerced to the string "null", which yields `NaN` (`none`). -/
def parseIntJS (a : Option String) : Option Int :=
  parseIntCore (a.getD "null")

/-- JavaScript truthiness of a string-or-null value: `null` and the empty
string are falsy. -/
def truthyStr : Option String → Bool
  | none => false
  | some s => s ≠ ""

/-- JavaScript `a || b` on two string-or-null values: returns `a` when
truthy, else `b`. -/
def jsOrStr (a b : Option String) : Option String :=
  if truthyStr a then a else b

/-- Split a character list on a non-empty separator sequence (fuelled on
the input length; `acc` holds the current piece reversed), modelling
JavaScript `String.prototype.split` with a string separator. -/
def splitOnCharsGo (sep : List Char) : Nat → List Char → List Char → List (List Char)
  | 0, acc, _ => [acc.reverse]
  | fuel + 1, acc, cs =>
    if sep ≠ [] ∧ sep.isPrefixOf cs then
      acc.reverse :: splitOnCharsGo sep fuel [] (cs.drop sep.length)
    else
      match cs with
      | [] => [acc.reverse]
      | c :: rest => splitOnCharsGo sep fuel (c :: acc) rest

/-- JavaScript `s.split(sep)` for a non-empty string separator. -/
def strSplit (s sep : String) : List String :=
  (splitOnCharsGo sep.toList (s.toList.length + 1) [] s.toList).map String.mk

/-- The first `n` characters of a string (JavaScript `slice(0, n)` on
the strings the source slices, which are ASCII attribute values). -/
def strTakeChars (s : String) (n : Nat) : String :=
  String.mk (s.toList.take n)

/-- Whether `pre` is a prefix of `s` (CSS `[attr^="pre"]`). -/
def strStarts (s pre : String) : Bool :=
  pre.toList.isPrefixOf s.toList

/-! ## JavaScript values and JSON.parse -/

/-- A JavaScript value as needed by the source: the result of
`JSON.parse` on a data-mw attribute, and the field values of the plain
objects handled by combineResponses. -/
inductive JVal where
  | undefined
  | null
  | bool (b : Bool)
  | num (n : JsNum)
  | str (s : String)
  | arr (elems : List JVal)
  | obj (fields : List (String × JVal))

/-- JavaScript truthiness of a value.  Note that arrays and objects are
always truthy, even when empty, and `NaN` and `0` are falsy. -/
def jsTruthy : JVal → Bool
  | .undefined => false
  | .null => false
  | .bool b => b
  | .num .nan => false
  | .num (.num n _) => decide (n ≠ 0)
  | .num _ => true
  | .str s => s ≠ ""
  | .arr _ => true
  | .obj _ => true

/-- JavaScript property read `v.k`: object field lookup; reading a
property off any non-object value yields `undefined` for the properties
the source reads (`starttime` etc. are not built-ins). -/
def jvalGet (v : JVal) (k : String) : JVal :=
  match v with
  | .obj fs => ((fs.find? (fun f => f.1 = k)).map (·.2)).getD .undefined
  | _ => .undefined

/-- Result of reading `v.k` as an optional value: `none` when the read
yields `undefined` (the source stores such reads in fields that then
serialize as absent). -/
def jvalGetOpt (v : JVal) (k : String) : Option JVal :=
  match jvalGet v k with
  | .undefined => none
  | w => some w

/-- JSON string body scanner: consumes characters after the opening
double quote up to the closing one, handling the JSON escapes.  Lone
UTF-16 surrogates (representable in a JavaScript string but not in a
Lean `String`) are replaced by U+FFFD; no claim touches such input. -/
def scanJsonString (fuel : Nat) (cs : List Char) : Except String (List Char × List Char) :=
  match fuel with
  | 0 => .error "SyntaxError: Unexpected end of JSON input"
  | fuel + 1 =>
    match cs with
    | [] => .error "SyntaxError: Unexpected end of JSON input"
    | '"' :: rest => .ok ([], rest)
    | '\\' :: esc =>
      match esc with
      | 'u' :: a :: b :: c :: d :: rest =>
        match hexVal a, hexVal b, hexVal c, hexVal d with
        | some x1, some x2, some x3, some x4 => do
          let n := ((x1 * 16 + x2) * 16 + x3) * 16 + x4
          if 0xD800 ≤ n ∧ n ≤ 0xDBFF then
            match rest with
            | '\\' :: 'u' :: a2 :: b2 :: c2 :: d2 :: rest2 =>
              match hexVal a2, hexVal b2, hexVal c2, hexVal d2 with
              | some y1, some y2, some y3, some y4 => do
                let m := ((y1 * 16 + y2) * 16 + y3) * 16 + y4
                if 0xDC00 ≤ m ∧ m ≤ 0xDFFF then
                  let cp := 0x10000 + (n - 0xD800) * 0x400 + (m - 0xDC00)
                  let (body, rem) ← scanJsonString fuel rest2
                  pure (Char.ofNat cp :: body, rem)
                else do
                  let (body, rem) ← scanJsonString fuel rest2
                  pure (Char.ofNat 0xFFFD :: Char.ofNat 0xFFFD :: body, rem)
              | _, _, _, _ => .error "SyntaxError: Bad Unicode escape"
            | _ => do
              let (body, rem) ← scanJsonString fuel rest
              pure (Char.ofNat 0xFFFD :: body, rem)
          else if 0xDC00 ≤ n ∧ n ≤ 0xDFFF then do
            let (body, rem) ← scanJsonString fuel rest
            pure (Char.ofNat 0xFFFD :: body, rem)
          else do
            let (body, rem) ← scanJsonString fuel rest
            pure (Char.ofNat n :: body, rem)
        | _, _, _, _ => .error "SyntaxError: Bad Unicode escape"
      | e :: rest =>
        let c? : Option Char :=
          if e = '"' then some '"'
          else if e = '\\' then some '\\'
          else if e = '/' then some '/'
          else if e = 'b' then some (Char.ofNat 8)
          else if e = 'f' then some (Char.ofNat 12)
          else if e = 'n' then some '\n'
          else if e = 'r' then some '\r'
          else if e = 't' then some '\t'
          else none
        match c? with
        | some c => do
          let (body, rem) ← scanJsonString fuel rest
          pure (c :: body, rem)
        | none => .error "SyntaxError: Bad escaped character in JSON"
      | [] => .error "SyntaxError: Unexpected end of JSON input"
    | c :: rest =>
      if c.toNat < 0x20 then .error "SyntaxError: Bad control character in JSON"
      else do
        let (body, rem) ← scanJsonString fuel rest
        pure (c :: body, rem)

/-- Scan a JSON number starting at the current position, returning its
value and the remaining input (strict JSON grammar:
minus? int frac? exp?). -/
def scanJsonNumber (cs : List Char) : Except String (JsNum × List Char) := do
  let (neg, cs1) :=
    match cs with
    | '-' :: rest => (true, rest)
    | rest => (false, rest)
  let ip := cs1.takeWhile (·.isDigit)
  let cs2 := cs1.dropWhile (·.isDigit)
  if ip.isEmpty then throw "SyntaxError: Unexpected token in JSON"
  else if ip.length > 1 ∧ ip.headD '0' = '0' then
    throw "SyntaxError: Unexpected number in JSON"
  else
    let (fp, cs3) : List Char × List Char :=
      match cs2 with
      | '.' :: rest => (rest.takeWhile (·.isDigit), rest.dropWhile (·.isDigit))
      | _ => ([], cs2)
    if cs2.headD ' ' = '.' ∧ fp.isEmpty then
      throw "SyntaxError: Unterminated fractional number in JSON"
    else
      let expRes : Except String (Int × List Char) :=
        match cs3 with
        | 'e' :: rest | 'E' :: rest =>
          let (esign, rest2) : Int × List Char :=
            match rest with
            | '+' :: r => ((1 : Int), r)
            | '-' :: r => ((-1 : Int), r)
            | r => ((1 : Int), r)
          let ed := rest2.takeWhile (·.isDigit)
          if ed.isEmpty then .error "SyntaxError: Exponent part is missing a number in JSON"
          else .ok (esign * (digitsVal ed : Int), rest2.dropWhile (·.isDigit))
        | _ => .ok (0, cs3)
      match expRes with
      | .error e => throw e
      | .ok (ex, rest) => pure (decToJsNum neg ip fp ex, rest)

/-- JSON whitespace. -/
def jsonWs (c : Char) : Bool :=
  c = ' ' || c = '\t' || c = '\n' || c = '\r'

mutual

/-- Parse one JSON value starting at the current position (fuelled;
the fuel is at least the input length at every call from the top level). -/
def scanJsonValue (fuel : Nat) (cs : List Char) : Except String (JVal × List Char) :=
  match fuel with
  | 0 => .error "SyntaxError: Unexpected end of JSON input"
  | fuel + 1 =>
    match cs.dropWhile jsonWs with
    | 'n' :: 'u' :: 'l' :: 'l' :: rest => .ok (.null, rest)
    | 't' :: 'r' :: 'u' :: 'e' :: rest => .ok (.bool true, rest)
    | 'f' :: 'a' :: 'l' :: 's' :: 'e' :: rest => .ok (.bool false, rest)
    | '"' :: rest => do
      let (body, rem) ← scanJsonString (rest.length + 1) rest
      pure (.str (String.mk body), rem)
    | '[' :: rest =>
      (match (rest.dropWhile jsonWs) with
      | ']' :: rem => .ok (.arr [], rem)
      | _ => do
        let (elems, rem) ← scanJsonElems fuel rest
        pure (.arr elems, rem))
    | '{' :: rest =>
      (match (rest.dropWhile jsonWs) with
      | '}' :: rem => .ok (.obj [], rem)
      | _ => do
        let (fields, rem) ← scanJsonFields fuel rest
        pure (.obj fields, rem))
    | other => do
      let (q, rem) ← scanJsonNumber other
      pure (.num q, rem)

/-- Parse the elements of a non-empty JSON array (after the opening
bracket). -/
def scanJsonElems (fuel : Nat) (cs : List Char) : Except String (List JVal × List Char) :=
  match fuel with
  | 0 => .error "SyntaxError: Unexpected end of JSON input"
  | fuel + 1 => do
    let (v, rem) ← scanJsonValue fuel cs
    match rem.dropWhile jsonWs with
    | ',' :: rest => do
      let (vs, rem2) ← scanJsonElems fuel rest
      pure (v :: vs, rem2)
    | ']' :: rest => pure ([v], rest)
    | _ => .error "SyntaxError: Expected comma or bracket after JSON array element"

/-- Parse the fields of a non-empty JSON object (after the opening
brace). -/
def scanJsonFields (fuel : Nat) (cs : List Char) : Except String (List (String × JVal) × List Char) :=
  match fuel with
  | 0 => .error "SyntaxError: Unexpected end of JSON input"
  | fuel + 1 =>
    match cs.dropWhile jsonWs with
    | '"' :: rest => do
      let (keyBody, rem) ← scanJsonString (rest.length + 1) rest
      match rem.dropWhile jsonWs with
      | ':' :: rest2 => do
        let (v, rem2) ← scanJsonValue fuel rest2
        match rem2.dropWhile jsonWs with
        | ',' :: rest3 => do
          let (fs, rem3) ← scanJsonFields fuel rest3
          pure ((String.mk keyBody, v) :: fs, rem3)
        | '}' :: rest3 => pure ([(String.mk keyBody, v)], rest3)
        | _ => .error "SyntaxError: Expected comma or brace after JSON property value"
      | _ => .error "SyntaxError: Expected colon after JSON property name"
    | _ => .error "SyntaxError: Expected string property name in JSON"

end

/-- `JSON.parse` on a string: strict JSON with no trailing content. -/
def jsonParse (s : String) : Except String JVal := do
  let (v, rem) ← scanJsonValue (s.length + 1) s.toList
  if (rem.dropWhile jsonWs).isEmpty then pure v
  else throw "SyntaxError: Unexpected non-whitespace character after JSON"

/-- `JSON.parse(elem.getAttribute(k))`: a `null` attribute value is
coerced to the string "null", which parses to the JSON value `null`. -/
def jsonParseAttr (a : Option String) : Except String JVal :=
  jsonParse (a.getD "null")

/-! ## decodeURIComponent -/

/-- Read one percent escape "%XY" at the head of the input, returning the
byte and the rest; errors on anything else. -/
def readPctByte (cs : List Char) : Except String (Nat × List Char) :=
  match cs with
  | '%' :: a :: b :: rest =>
    match hexVal a, hexVal b with
    | some x, some y => .ok (16 * x + y, rest)
    | _, _ => .error "URIError: URI malformed"
  | _ => .error "URIError: URI malformed"

/-- Read `n` UTF-8 continuation bytes, each written as a percent escape,
accumulating the code point so far. -/
def readContBytes (n : Nat) (acc : Nat) (cs : List Char) : Except String (Nat × List Char) :=
  match n with
  | 0 => .ok (acc, cs)
  | n + 1 => do
    let (b, rest) ← readPctByte cs
    if 0x80 ≤ b ∧ b ≤ 0xBF then
      readContBytes n (acc * 64 + (b - 0x80)) rest
    else
      throw "URIError: URI malformed"

/-- Core loop of `decodeURIComponent` (fuelled on the input length):
ordinary characters pass through, percent escapes are decoded as strict
UTF-8 (overlong encodings, surrogate code points and values above
U+10FFFF throw `URIError`, as in ECMAScript). -/
def decodeURILoop (fuel : Nat) (cs : List Char) : Except String (List Char) :=
  match fuel with
  | 0 => .ok []
  | fuel + 1 =>
    match cs with
    | [] => .ok []
    | '%' :: _ => do
      let (b, rest) ← readPctByte cs
      if b < 0x80 then do
        let tl ← decodeURILoop fuel rest
        pure (Char.ofNat b :: tl)
      else if 0xC2 ≤ b ∧ b ≤ 0xDF then do
        let (cp, rest2) ← readContBytes 1 (b - 0xC0) rest
        let tl ← decodeURILoop fuel rest2
        pure (Char.ofNat cp :: tl)
      else if 0xE0 ≤ b ∧ b ≤ 0xEF then do
        let (cp, rest2) ← readContBytes 2 (b - 0xE0) rest
        if cp < 0x800 ∨ (0xD800 ≤ cp ∧ cp ≤ 0xDFFF) then
          throw "URIError: URI malformed"
        else do
          let tl ← decodeURILoop fuel rest2
          pure (Char.ofNat cp :: tl)
      else if 0xF0 ≤ b ∧ b ≤ 0xF4 then do
        let (cp, rest2) ← readContBytes 3 (b - 0xF0) rest
        if cp < 0x10000 ∨ 0x10FFFF < cp then
          throw "URIError: URI malformed"
        else do
          let tl ← decodeURILoop fuel rest2
          pure (Char.ofNat cp :: tl)
      else
        throw "URIError: URI malformed"
    | c :: rest => do
      let tl ← decodeURILoop fuel rest
      pure (c :: tl)

/-- ECMAScript `decodeURIComponent`. -/
def decodeURIComponent (s : String) : Except String String := do
  let cs ← decodeURILoop (s.length + 1) s.toList
  pure (String.mk cs)

/-! ## DOM model -/

/-- A DOM node: an element with a tag name, an attribute list and child
nodes, or a text node.  Attribute lists of real DOM elements have
pairwise distinct names; `getAttribute` reads the first binding. -/
inductive Elem where
  | elem (tag : String) (attrs : List (String × String)) (children : List Elem)
  | text (s : String)

/-- The tag name (empty for text nodes). -/
def Elem.tag : Elem → String
  | .elem t _ _ => t
  | .text _ => ""

/-- The attribute list (empty for text nodes). -/
def Elem.attrs : Elem → List (String × String)
  | .elem _ a _ => a
  | .text _ => []

/-- The child list (empty for text nodes). -/
def Elem.children : Elem → List Elem
  | .elem _ _ c => c
  | .text _ => []

/-- Whether the node is an element node. -/
def Elem.isElem : Elem → Bool
  | .elem _ _ _ => true
  | .text _ => false

/-- `getAttribute`: `none` models the DOM `null` for an absent
attribute. -/
def Elem.getAttribute (e : Elem) (k : String) : Option String :=
  ((e.attrs.find? (fun p => p.1 = k)).map (fun p => p.2))

/-- `className`: the `class` attribute, or the empty string when absent
(the DOM default for `Element.className`). -/
def Elem.className (e : Elem) : String :=
  (e.getAttribute "class").getD ""

/-- CSS whitespace separating class tokens. -/
def isCssWs (c : Char) : Bool :=
  c = ' ' || c = '\t' || c = '\n' || c = '\r' || c = (Char.ofNat 12)

/-- Cut a character list into maximal runs of non-whitespace (fuelled on
the input length). -/
def wsTokensGo : Nat → List Char → List (List Char)
  | 0, _ => []
  | fuel + 1, cs =>
    let cs1 := cs.dropWhile isCssWs
    match cs1 with
    | [] => []
    | _ =>
      cs1.takeWhile (fun c => !isCssWs c) :: wsTokensGo fuel (cs1.dropWhile (fun c => !isCssWs c))

/-- Whitespace-separated class tokens of an element, as used by CSS class
selectors. -/
def Elem.classTokens (e : Elem) : List String :=
  (wsTokensGo (e.className.toList.length + 1) e.className.toList).map String.mk

/-- CSS class selector `.c`: token membership in the class attribute. -/
def Elem.hasClassToken (e : Elem) (c : String) : Bool :=
  e.classTokens.contains c

mutual

/-- All element descendants of a node, itself included when it is an
element, in document (preorder) order. -/
def descendantsSelf : Elem → List Elem
  | .elem t a cs => .elem t a cs :: descendantsList cs
  | .text _ => []

/-- All element descendants of a node list, in document order. -/
def descendantsList : List Elem → List Elem
  | [] => []
  | c :: cs => descendantsSelf c ++ descendantsList cs

end

/-- The element descendants of an element, itself excluded, in document
order: the search space of `Element.querySelector` and
`getElementsByTagName`. -/
def Elem.descendants (e : Elem) : List Elem :=
  descendantsList e.children

/-- `element.querySelector` for a selector modelled as an element
predicate: the first matching descendant in document order, or `none`. -/
def querySelectorEl (e : Elem) (p : Elem → Bool) : Option Elem :=
  e.descendants.find? p

/-- `element.getElementsByTagName(t)`: all descendants with the given
tag, in document order. -/
def getElementsByTagName (e : Elem) (t : String) : List Elem :=
  e.descendants.filter (fun d => d.tag = t)

/-- An element in context: the element together with its ancestor chain
(nearest first), which is what `Element.closest` walks. -/
structure Node where
  elem : Elem
  ancestors : List Elem

mutual

/-- Collect all element nodes of a subtree together with their ancestor
chains, in document (preorder) order; `anc` is the chain of the subtree
root's ancestors, nearest first. -/
def collectNodes (anc : List Elem) : Elem → List Node
  | .elem t a cs => ⟨.elem t a cs, anc⟩ :: collectNodesList (.elem t a cs :: anc) cs
  | .text _ => []

/-- `collectNodes` over a child list. -/
def collectNodesList (anc : List Elem) : List Elem → List Node
  | [] => []
  | c :: cs => collectNodes anc c ++ collectNodesList anc cs

end

/-- `Element.closest` for a selector modelled as a predicate: the nearest
ancestor-or-self match, walking to the document root. -/
def Node.closest (n : Node) (p : Elem → Bool) : Option Elem :=
  (n.elem :: n.ancestors).find? p

mutual

/-- `textContent`: concatenation of all text node data in the subtree, in
document order. -/
def textContent : Elem → String
  | .elem _ _ cs => textContentList cs
  | .text s => s

/-- `textContent` over a node list. -/
def textContentList : List Elem → String
  | [] => ""
  | c :: cs => textContent c ++ textContentList cs

end

/-- Escape text data for HTML serialization. -/
def escapeHtmlText (s : String) : String :=
  String.join (s.toList.map (fun c =>
    if c = '&' then "&amp;" else if c = '<' then "&lt;"
    else if c = '>' then "&gt;" else String.mk [c]))

/-- Serialize an attribute list. -/
def serializeAttrs (attrs : List (String × String)) : String :=
  String.join (attrs.map (fun p => " " ++ p.1 ++ "=\"" ++ p.2 ++ "\""))

mutual

/-- HTML serialization of a node, as used for `innerHTML`.  This models
the external serializer structurally (attribute-value escaping and
void-element special cases are not needed by any claim). -/
def serializeNode : Elem → String
  | .elem t a cs => "<" ++ t ++ serializeAttrs a ++ ">" ++ serializeList cs ++ "</" ++ t ++ ">"
  | .text s => escapeHtmlText s

/-- Serialization of a node list. -/
def serializeList : List Elem → String
  | [] => ""
  | c :: cs => serializeNode c ++ serializeList cs

end

/-- `innerHTML` of an element: the serialization of its children. -/
def Elem.innerHTML (e : Elem) : String :=
  serializeList e.children

/-! ## lib/media.js: selector constants and classification -/

/-- Substring containment test, modelling JavaScript
`String.prototype.includes`. -/
def strContainsSub (s sub : String) : Bool :=
  (List.range (s.toList.length + 1)).any (fun i => sub.toList.isPrefixOf (s.toList.drop i))

/-- Modelled from the spec: the reserved "Mathoid image" class marker,
imported by the source as MATHOID_IMG_CLASS from ./selectors, a module
not under src/.  The spec fixes it as a contract constant distinguishing
math-formula renderings; its exact spelling is opaque to every claim. -/
def MATHOID_IMG_CLASS : String := "mwe-math-fallback-image-inline"

/-- The minimum declared pixel size below which images are filtered. -/
def MIN_IMAGE_SIZE : Nat := 48

/-- The closed set of media-type variants.  The source represents these
as six fixed `MediaType` instances compared by reference identity; a
tagged variant is the faithful shallow embedding of that identity. -/
inductive MediaType where
  | image
  | video
  | audio
  | pronunciation
  | mathImage
  | unknown
deriving DecidableEq

/-- The resource selector of a variant (the `selector` field of the
`MediaType` instances; `null` becomes `none`). -/
def MediaType.selector : MediaType → Option String
  | .image => some "img"
  | .video => some "video"
  | .audio => some "audio, video"
  | .pronunciation => none
  | .mathImage => none
  | .unknown => none

/-- The output discriminator of a variant (the `name` field of the
`MediaType` instances: Pronunciation shares Audio's, MathImage shares
Image's). -/
def MediaType.name : MediaType → String
  | .image => "image"
  | .video => "video"
  | .audio => "audio"
  | .pronunciation => "audio"
  | .mathImage => "image"
  | .unknown => "unknown"

/-- `isMathoidImage`: whether `elem.className` contains the Mathoid class
marker (`String.prototype.includes`, a substring test). -/
def isMathoidImage (e : Elem) : Bool :=
  strContainsSub e.className MATHOID_IMG_CLASS

/-- `getMediaType`: classify an element, `none` meaning the function
falls off the end and returns `undefined`.  A present non-empty `typeof`
attribute is truthy, so its first 8 characters are switched on; an
absent (or empty, hence falsy) `typeof` falls through to the `rel`
check and then the Mathoid class check. -/
def getMediaType (e : Elem) : Option MediaType :=
  if truthyStr (e.getAttribute "typeof") then
    if strTakeChars ((e.getAttribute "typeof").getD "") 8 = "mw:Image" then some .image
    else if strTakeChars ((e.getAttribute "typeof").getD "") 8 = "mw:Video" then some .video
    else if strTakeChars ((e.getAttribute "typeof").getD "") 8 = "mw:Audio" then some .audio
    else some .unknown
  else if e.getAttribute "rel" = some "mw:MediaLink" then some .pronunciation
  else if isMathoidImage e then some .mathImage
  else none

/-- Modelled from the spec: the blacklist of disallowed ancestor classes
(the source imports MediaBlacklist from ./selectors, not under src/, and
tests it with `elem.closest` over the comma-joined class selectors).
The spec fixes it as a set of class names hiding elements from
galleries; the exact names are opaque to every claim. -/
def isBlacklistedElem (e : Elem) : Bool :=
  e.hasClassToken "metadata" || e.hasClassToken "noviewer"

/-- `isDisallowed`: the element or an ancestor matches the blacklist. -/
def isDisallowed (n : Node) : Bool :=
  (n.closest isBlacklistedElem).isSome

/-- `isTooSmall`: the source compares the raw `width` / `height`
attribute values (string or `null`) directly against the numeric
threshold, so the values pass through `ToNumber`: an absent attribute
coerces to 0, a non-numeric string to `NaN` (making its comparison
false). -/
def isTooSmall (img : Elem) : Bool :=
  jsLtNat (img.getAttribute "width") MIN_IMAGE_SIZE ||
  jsLtNat (img.getAttribute "height") MIN_IMAGE_SIZE

/-- Modelled from the spec: the candidate union selector (the source
joins MediaSelectors from ./selectors, not under src/).  Per the spec,
candidates match by a `typeof` prefix (`mw:Image` / `mw:Video` /
`mw:Audio`), by `rel="mw:MediaLink"`, or by Mathoid image class
membership. -/
def isMediaCandidate (e : Elem) : Bool :=
  strStarts ((e.getAttribute "typeof").getD "") "mw:Image" ||
  strStarts ((e.getAttribute "typeof").getD "") "mw:Video" ||
  strStarts ((e.getAttribute "typeof").getD "") "mw:Audio" ||
  e.getAttribute "rel" = some "mw:MediaLink" ||
  isMathoidImage e

/-- Modelled from the spec: the "spoken Wikipedia" container marker
(the source imports SpokenWikipediaId from ./selectors, not under src/,
and tests it with `elem.closest`); per the spec it marks the curated
audio-narration container.  Modelled as an id selector. -/
def isSpokenWikipediaContainer (e : Elem) : Bool :=
  e.getAttribute "id" = some "section_SpokenWikipedia"

/-- A resource selector string (`img`, `video`, or `audio, video`) as an
element predicate: a comma-separated union of tag selectors. -/
def matchesTagSelector (sel : String) (e : Elem) : Bool :=
  e.isElem && (strSplit sel ", ").contains e.tag

/-! ## lib/media.js: extraction -/

/-- A `{html, text}` caption pair. -/
structure Caption where
  html : String
  text : String

/-- One entry of a video record's `sources` array. -/
structure SourceRec where
  url : Option String
  mime : String
  codecs : List String
  name : Option String
  short_name : Option String
  width : Option String
  height : Option String

/-- A math image's `original` value. -/
structure OrigRec where
  source : Option String
  mime : String

/-- The per-item record built by `getMediaItemInfoFromPage`.
`section_id` is `none` when there is no enclosing section (the JS value
is then `undefined`), `some none` when there is one but `parseInt` gave
`NaN`, and `some (some k)` for a parsed integer.  `gallery_id` likewise
distinguishes no enclosing gallery (`none`) from a gallery whose `id`
attribute may itself be `null`. -/
structure MediaItem where
  title : Option String
  section_id : Option (Option Int)
  type : String
  caption : Option Caption
  start_time : Option JVal
  end_time : Option JVal
  thumb_time : Option JVal
  audio_type : Option String
  gallery_id : Option (Option String)
  sources : Option (List SourceRec)
  showInGallery : Bool
  original : Option OrigRec

/-- Unwrap an optional value, throwing the given JS-style error when it
is `none` (a `TypeError` from dereferencing `null`/`undefined`). -/
def orThrow (o : Option α) (msg : String) : Except String α :=
  match o with
  | some a => .ok a
  | none => .error msg

/-- The regex replace `.replace(/^.\//, '')` on the `resource`
attribute: drop a leading two-character prefix whose second character is
a slash (`.` matches any character except a line terminator). -/
def stripResourcePrefix (s : String) : String :=
  match s.toList with
  | a :: '/' :: rest =>
    if a = '\n' ∨ a = '\r' ∨ a = (Char.ofNat 0x2028) ∨ a = (Char.ofNat 0x2029) then s
    else String.mk rest
  | _ => s

/-- Build one entry of the `sources` array from a `<source>` element.
The `type` attribute is split on the two-character separator "; "
(dereferencing `null` when the attribute is absent throws); the second
segment is split on double quotes and its second piece, comma-space
split, gives the codecs (again throwing when the segments are absent);
width and height prefer the file-specific attributes with the JS `||`
falsy fallback. -/
def mkSourceRec (s : Elem) : Except String SourceRec := do
  let ty ← orThrow (s.getAttribute "type") "TypeError: Cannot read property split of null"
  let parts := strSplit ty "; "
  let seg ← orThrow (parts.get? 1) "TypeError: Cannot read property split of undefined"
  let quoted ← orThrow ((strSplit seg "\"").get? 1) "TypeError: Cannot read property split of undefined (codecs)"
  pure {
    url := s.getAttribute "src",
    mime := parts.headD "",
    codecs := strSplit quoted ", ",
    name := s.getAttribute "data-title",
    short_name := s.getAttribute "data-shorttitle",
    width := jsOrStr (s.getAttribute "data-file-width") (s.getAttribute "data-width"),
    height := jsOrStr (s.getAttribute "data-file-height") (s.getAttribute "data-height") }

/-- The candidate filter body (the arrow function passed to `.filter`):
a Mathoid image is kept outright; otherwise the element is classified,
its resource element resolved, and it is kept when (not an Image or its
resource is not too small) and not disallowed.  When the variant is
Image and no resource element resolves, `isTooSmall(null)` dereferences
`null` and throws. -/
def keepInCandidates (n : Node) : Except String Bool :=
  if isMathoidImage n.elem then pure true
  else do
    let mediaType ← orThrow (getMediaType n.elem)
      "TypeError: Cannot read property selector of undefined"
    let resource := (MediaType.selector mediaType).bind
      (fun sel => querySelectorEl n.elem (matchesTagSelector sel))
    if mediaType = MediaType.image then do
      let r ← orThrow resource "TypeError: Cannot read property getAttribute of null"
      pure (!(isTooSmall r) && !(isDisallowed n))
    else
      pure (!(isDisallowed n))

/-- The resource element of a classified element: `mediaType.selector &&
elem.querySelector(mediaType.selector)` (`none` when the variant has no
selector or no descendant matches). -/
def resourceOf (n : Node) (mediaType : MediaType) : Option Elem :=
  (MediaType.selector mediaType).bind
    (fun sel => querySelectorEl n.elem (matchesTagSelector sel))

/-- The default title:
`resource && decodeURIComponent(resource.getAttribute('resource').replace(/^.\//, ''))`
— `null` when there is no resource element, a thrown `TypeError` when the
resource element lacks the `resource` attribute, and a possible
`URIError` from the decoding. -/
def titleOf (resource : Option Elem) : Except String (Option String) :=
  match resource with
  | none => pure none
  | some r => do
    let rAttr ← orThrow (r.getAttribute "resource")
      "TypeError: Cannot read property replace of null"
    let d ← decodeURIComponent (stripResourcePrefix rAttr)
    pure (some d)

/-- The variant-dependent record fields (`title` after any per-type
override, the three time fields, `audio_type`, `sources` and
`original`). -/
structure BranchData where
  title : Option String
  start_time : Option JVal
  end_time : Option JVal
  thumb_time : Option JVal
  audio_type : Option String
  sources : Option (List SourceRec)
  original : Option OrigRec

/-- The variant-specific extraction (the `if (mediaType === Video) ...`
chain): videos parse the data-mw JSON sidecar (throwing on malformed
JSON) and collect their source descendants; pronunciations rebuild the
title from the element's `title` attribute; audio picks spoken/generic;
math images set `original`. -/
def buildBranch (n : Node) (mediaType : MediaType) (title0 : Option String) :
    Except String BranchData :=
  if mediaType = MediaType.video then do
    let dataMw ← jsonParseAttr (n.elem.getAttribute "data-mw")
    let startTime := if jsTruthy dataMw then jvalGetOpt dataMw "starttime" else none
    let endTime := if jsTruthy dataMw then jvalGetOpt dataMw "endtime" else none
    let thumbTime := if jsTruthy dataMw then jvalGetOpt dataMw "thumbtime" else none
    let sourceElems := getElementsByTagName n.elem "source"
    let sources ← sourceElems.mapM mkSourceRec
    pure ⟨title0, startTime, endTime, thumbTime, none, some sources, none⟩
  else if mediaType = MediaType.pronunciation then do
    let t ← decodeURIComponent ("File:" ++ ((n.elem.getAttribute "title").getD "null"))
    pure ⟨some t, none, none, none, some "pronunciation", none, none⟩
  else if mediaType = MediaType.audio then
    pure ⟨title0, none, none, none,
      some (if (n.closest isSpokenWikipediaContainer).isSome then "spoken" else "generic"),
      none, none⟩
  else if mediaType = MediaType.mathImage then
    pure ⟨title0, none, none, none, none, none,
      some (OrigRec.mk (n.elem.getAttribute "src") "image/svg")⟩
  else
    pure ⟨title0, none, none, none, none, none, none⟩

/-- Assemble the final record: the variant-independent fields
(`section_id` from the nearest enclosing section, `caption` from the
first figcaption descendant, `gallery_id` from the nearest gallery
ancestor, `type` and `showInGallery` from the variant) around the
branch data. -/
def mkItem (n : Node) (mediaType : MediaType) (b : BranchData) : MediaItem :=
  { title := b.title,
    section_id := (n.closest (fun e => e.tag = "section")).map
      (fun s => parseIntJS (s.getAttribute "data-mw-section-id")),
    type := MediaType.name mediaType,
    caption := (querySelectorEl n.elem (fun e => e.tag = "figcaption")).map
      (fun f => Caption.mk f.innerHTML (textContent f)),
    start_time := b.start_time,
    end_time := b.end_time,
    thumb_time := b.thumb_time,
    audio_type := b.audio_type,
    gallery_id := (n.closest (fun e => e.hasClassToken "gallery")).map
      (fun g => g.getAttribute "id"),
    sources := b.sources,
    showInGallery := (mediaType = MediaType.image || mediaType = MediaType.video),
    original := b.original }

/-- Build the `MediaRecord` for one surviving element (the arrow
function passed to `[].map.call`). -/
def buildRecord (n : Node) : Except String MediaItem := do
  let mediaType ← orThrow (getMediaType n.elem)
    "TypeError: Cannot read property selector of undefined"
  let title0 ← titleOf (resourceOf n mediaType)
  let b ← buildBranch n mediaType title0
  pure (mkItem n mediaType b)

/-- The `_.uniq` iteratee `elem => (elem.title || elem.original.source)`:
the title when truthy, otherwise the `source` of `original` —
dereferencing `undefined` (and throwing) when `original` was never set. -/
def dedupKey (m : MediaItem) : Except String (Option String) :=
  if truthyStr m.title then pure m.title
  else
    match m.original with
    | some o => pure o.source
    | none => .error "TypeError: Cannot read property source of undefined"

/-- The `_.uniq` loop: walk the list, keep an item whose computed key
has not been seen, remember the key. -/
def uniqGo (seen : List (Option String)) : List MediaItem → Except String (List MediaItem)
  | [] => pure []
  | m :: ms => do
    let k ← dedupKey m
    if seen.contains k then uniqGo seen ms
    else do
      let rest ← uniqGo (k :: seen) ms
      pure (m :: rest)

/-- `_.uniq(results, iteratee)`: first occurrence of each key wins. -/
def uniqJs (l : List MediaItem) : Except String (List MediaItem) :=
  uniqGo [] l

/-- All candidate elements of the document (the `querySelectorAll`
result), in document order, with their ancestor chains. -/
def candidateNodes (doc : Elem) : List Node :=
  (collectNodes [] doc).filter (fun n => isMediaCandidate n.elem)

/-- The candidates surviving the filter, in document order. -/
def survivingNodes (doc : Elem) : Except String (List Node) :=
  (candidateNodes doc).filterM keepInCandidates

/-- The pre-deduplication record list, in document order of the
surviving elements (the `results` local of the source). -/
def docOrderRecords (doc : Elem) : Except String (List MediaItem) := do
  let elems ← survivingNodes doc
  elems.mapM buildRecord

/-- `getMediaItemInfoFromPage`, from the parsed document (the
`domino.createDocument` parse is the external collaborator): select the
candidates, filter them, build the records and deduplicate. -/
def getMediaItemInfoFromPage (doc : Elem) : Except String (List MediaItem) := do
  let results ← docOrderRecords doc
  uniqJs results

/-! ## lib/media.js: combineResponses -/

/-- A JavaScript plain object: ordered field list.  Real objects have
pairwise distinct keys; `objGet` reads the first binding. -/
abbrev JsObj := List (String × JVal)

/-- Property read on an object: `undefined` when the key is absent. -/
def objGet (o : JsObj) (k : String) : JVal :=
  ((o.find? (fun p => p.1 = k)).map (fun p => p.2)).getD .undefined

/-- Whether the object has the key at all (`delete` removes it, as
opposed to a present key holding `undefined`). -/
def objHasKey (o : JsObj) (k : String) : Bool :=
  (o.find? (fun p => p.1 = k)).isSome

/-- Property write: update the existing binding in place, else append
(JavaScript insertion order). -/
def objSet (o : JsObj) (k : String) (v : JVal) : JsObj :=
  if objHasKey o k then o.map (fun p => if p.1 = k then (k, v) else p)
  else o ++ [(k, v)]

/-- The `delete` operator: remove the binding. -/
def objDelete (o : JsObj) (k : String) : JsObj :=
  o.filter (fun p => p.1 ≠ k)

/-- `Object.assign(target, src)`: copy the source fields into the target
in order, overriding existing bindings (shallow merge). -/
def objAssign (target src : JsObj) : JsObj :=
  src.foldl (fun t p => objSet t p.1 p.2) target

mutual

/-- JavaScript `ToString` as used when a value is a property key
(`apiResponse[mediaItem.title]`).  Exact for the strings, booleans,
`null`/`undefined`, `NaN`, infinities and integers the pipeline can
produce; the non-integral-number rendering is a stand-in (the titles
reaching this point are strings). -/
def jvalToKeyString : JVal → String
  | .undefined => "undefined"
  | .null => "null"
  | .bool b => if b then "true" else "false"
  | .num .nan => "NaN"
  | .num .posInf => "Infinity"
  | .num .negInf => "-Infinity"
  | .num (.num n d) => if d = 1 then toString n else toString n ++ "/" ++ toString d
  | .str s => s
  | .arr xs => String.intercalate "," (jvalListKeyStrings xs)
  | .obj _ => "[object Object]"

/-- `ToString` over a list of values (array join). -/
def jvalListKeyStrings : List JVal → List String
  | [] => []
  | v :: vs => jvalToKeyString v :: jvalListKeyStrings vs

end

/-- The external metadata map: file-page title → metadata object. -/
abbrev ApiMap := List (String × JsObj)

/-- `apiResponse[title]`: `none` models `undefined` (title absent from
the map), in which case `Object.assign(item, undefined)` is a no-op. -/
def apiLookup (api : ApiMap) (k : String) : Option JsObj :=
  (api.find? (fun p => p.1 = k)).map (fun p => p.2)

/-- The body of the `combineResponses` map callback: merge the metadata
entry for a truthy title, delete `title`, and delete `original` when
`sources` is truthy. -/
def combineOne (api : ApiMap) (item : JsObj) : JsObj :=
  let item1 :=
    if jsTruthy (objGet item "title") then
      match apiLookup api (jvalToKeyString (objGet item "title")) with
      | some entry => objAssign item entry
      | none => item
    else item
  let item2 := objDelete item1 "title"
  if jsTruthy (objGet item2 "sources") then objDelete item2 "original" else item2

/-- `combineResponses(apiResponse, pageMediaList)`: the returned array. -/
def combineResponses (api : ApiMap) (l : List JsObj) : List JsObj :=
  l.map (combineOne api)

/-- The contents of the input array after `combineResponses` returns:
each map callback mutates its input record in place (`Object.assign`
onto it and `delete` on it) and returns that same object, so the records
held by the caller's array after the call are exactly the returned
records. -/
def combineResponsesInputAfter (api : ApiMap) (l : List JsObj) : List JsObj :=
  combineResponses api l

/-- Is the value an array?  Extraction-produced records carry `sources`
only as an array (video), never as another value. -/
def isArrVal : JVal → Bool
  | .arr _ => true
  | _ => false

/-- Attribute-valued field to JS value: `null` for an absent attribute. -/
def attrVal : Option String → JVal
  | none => .null
  | some s => .str s

/-- One `sources` entry as the JS object the source builds. -/
def SourceRec.toObj (s : SourceRec) : JVal :=
  .obj [
    ("url", attrVal s.url),
    ("mime", .str s.mime),
    ("codecs", .arr (s.codecs.map (fun c => .str c))),
    ("name", attrVal s.name),
    ("short_name", attrVal s.short_name),
    ("width", attrVal s.width),
    ("height", attrVal s.height)]

/-- A `MediaItem` as the JS object literal the source builds (keys in
literal order; `original` appended only when set, as in the source). -/
def MediaItem.toObj (m : MediaItem) : JsObj :=
  [
    ("title", match m.title with | none => .null | some t => .str t),
    ("section_id", match m.section_id with
      | none => .undefined
      | some none => .num .nan
      | some (some k) => .num (.num k 1)),
    ("type", .str m.type),
    ("caption", match m.caption with
      | none => .null
      | some c => .obj [("html", .str c.html), ("text", .str c.text)]),
    ("start_time", (m.start_time).getD .undefined),
    ("end_time", (m.end_time).getD .undefined),
    ("thumb_time", (m.thumb_time).getD .undefined),
    ("audio_type", match m.audio_type with | none => .undefined | some a => .str a),
    ("gallery_id", match m.gallery_id with
      | none => .undefined
      | some g => attrVal g),
    ("sources", match m.sources with
      | none => .undefined
      | some l => .arr (l.map SourceRec.toObj)),
    ("showInGallery", .bool m.showInGallery)]
  ++ (match m.original with
    | none => []
    | some o => [("original", .obj [("source", attrVal o.source), ("mime", .str o.mime)])])

/-- The extraction-and-merge pipeline on a parsed document and a
metadata map. -/
def extractAndMerge (doc : Elem) (api : ApiMap) : Except String (List JsObj) := do
  let items ← getMediaItemInfoFromPage doc
  pure (combineResponses api (items.map MediaItem.toObj))

/-! ## Auxiliary definitions for the verification statements -/

/-- Boolean test that a record's dedup key computes successfully to `k`. -/
def keyIs (k : Option String) (r : MediaItem) : Bool :=
  match dedupKey r with
  | .ok k2 => k2 == k
  | .error _ => false

/-- Following the spec's words, not the source: "MIME type (before the
first `;`)".  Compared against the mime the source actually extracts,
which is the first segment of a split on the two-character separator
"; ". -/
def specMimeBeforeSemicolon (s : String) : String :=
  String.mk (s.toList.takeWhile (fun c => c ≠ ';'))

/-! ## Concrete documents and records used by the claim checks -/

/-- C1: a Video element whose data-mw attribute holds invalid JSON. -/
def exC1Bad : Elem :=
  .elem "body" [] [.elem "figure" [("typeof", "mw:Video"), ("data-mw", "\x7binvalid")]
    [.elem "video" [("resource", "./File:V.webm")] []]]

/-- C1: the same Video element with no data-mw attribute at all. -/
def exC1Good : Elem :=
  .elem "body" [] [.elem "figure" [("typeof", "mw:Video")]
    [.elem "video" [("resource", "./File:V.webm")] []]]

/-- C1: the record extracted from the data-mw-less video. -/
def exC1GoodRec : MediaItem :=
  { title := some "File:V.webm", section_id := none, type := "video",
    caption := none, start_time := none, end_time := none, thumb_time := none,
    audio_type := none, gallery_id := none, sources := some [],
    showInGallery := true, original := none }

/-- C2: an img with a height but no width attribute. -/
def exC2Img : Elem := .elem "img" [("resource", "./File:A.jpg"), ("height", "100")] []

/-- C2: a document whose only candidate wraps `exC2Img`. -/
def exC2Doc : Elem := .elem "body" [] [.elem "figure" [("typeof", "mw:Image")] [exC2Img]]

/-- C3: a document with an mw:Image element containing no img descendant. -/
def exC3Img : Elem := .elem "body" [] [.elem "span" [("typeof", "mw:Image")] []]

/-- C3: an mw:Video element containing no video descendant. -/
def exC3Vid : Elem := .elem "figure" [("typeof", "mw:Video")] []

/-- C3: a document around `exC3Vid`. -/
def exC3VidDoc : Elem := .elem "body" [] [exC3Vid]

/-- C4: first image figure. -/
def exC4A : Elem :=
  .elem "figure" [("typeof", "mw:Image")]
    [.elem "img" [("resource", "./File:A.jpg"), ("width", "100"), ("height", "100")] []]

/-- C4: second image figure, distinct title. -/
def exC4B : Elem :=
  .elem "figure" [("typeof", "mw:Image")]
    [.elem "img" [("resource", "./File:B.jpg"), ("width", "100"), ("height", "100")] []]

/-- C4: a document with the two images. -/
def exC4Doc : Elem := .elem "body" [] [exC4A, exC4B]

/-- C4: the record of the first image. -/
def exC4RecA : MediaItem :=
  { title := some "File:A.jpg", section_id := none, type := "image",
    caption := none, start_time := none, end_time := none, thumb_time := none,
    audio_type := none, gallery_id := none, sources := none,
    showInGallery := true, original := none }

/-- C4: the record of the second image. -/
def exC4RecB : MediaItem :=
  { title := some "File:B.jpg", section_id := none, type := "image",
    caption := none, start_time := none, end_time := none, thumb_time := none,
    audio_type := none, gallery_id := none, sources := none,
    showInGallery := true, original := none }

/-- C5: a document with two images deriving the same title (the second
carrying a caption, so the two records differ as values) and a third
with a different title. -/
def exC5Doc : Elem :=
  .elem "body" []
    [.elem "figure" [("typeof", "mw:Image")]
      [.elem "img" [("resource", "./File:A.jpg"), ("width", "100"), ("height", "100")] []],
     .elem "figure" [("typeof", "mw:Image")]
      [.elem "img" [("resource", "./File:A.jpg"), ("width", "100"), ("height", "100")] [],
       .elem "figcaption" [] [.text "x"]],
     .elem "figure" [("typeof", "mw:Image")]
      [.elem "img" [("resource", "./File:B.jpg"), ("width", "100"), ("height", "100")] []]]

/-- C5: the first File:A record (no caption). -/
def exC5RecA : MediaItem :=
  { title := some "File:A.jpg", section_id := none, type := "image",
    caption := none, start_time := none, end_time := none, thumb_time := none,
    audio_type := none, gallery_id := none, sources := none,
    showInGallery := true, original := none }

/-- C5: the duplicate File:A record (with caption). -/
def exC5RecA2 : MediaItem :=
  { title := some "File:A.jpg", section_id := none, type := "image",
    caption := some ⟨"x", "x"⟩, start_time := none, end_time := none, thumb_time := none,
    audio_type := none, gallery_id := none, sources := none,
    showInGallery := true, original := none }

/-- C5: the File:B record. -/
def exC5RecB : MediaItem :=
  { title := some "File:B.jpg", section_id := none, type := "image",
    caption := none, start_time := none, end_time := none, thumb_time := none,
    audio_type := none, gallery_id := none, sources := none,
    showInGallery := true, original := none }

/-- C6: a record carrying a title, as extracted for an image. -/
def exC6Item : JsObj :=
  [("title", .str "File:Foo.jpg"), ("type", .str "image"), ("showInGallery", .bool true)]

/-- C6: a metadata map holding a description for that title. -/
def exC6Api : ApiMap := [("File:Foo.jpg", [("description", .str "A foo")])]

/-- C8: a video whose source has a type attribute in which the first
`;` is not followed by a space. -/
def exC8Doc : Elem :=
  .elem "body" [] [.elem "figure" [("typeof", "mw:Video")]
    [.elem "video" [("resource", "./File:V.webm")]
      [.elem "source" [("src", "u1"), ("type", "video/webm;x; codecs=\"vp8\"")] []]]]

/-- C8: the sources entry the source code builds for it. -/
def exC8Src : SourceRec :=
  { url := some "u1", mime := "video/webm;x", codecs := ["vp8"],
    name := none, short_name := none, width := none, height := none }

/-- C8: the full extracted record. -/
def exC8Rec : MediaItem :=
  { title := some "File:V.webm", section_id := none, type := "video",
    caption := none, start_time := none, end_time := none, thumb_time := none,
    audio_type := none, gallery_id := none, sources := some [exC8Src],
    showInGallery := true, original := none }

/-- C8 witness: a video with two well-formed sources with distinct
data-width. -/
def exC8WElem : Elem :=
  .elem "figure" [("typeof", "mw:Video")]
    [.elem "video" [("resource", "./File:W.webm")]
      [.elem "source" [("src", "u1"), ("type", "video/webm; codecs=\"vp8, vorbis\""),
        ("data-title", "A"), ("data-shorttitle", "a"), ("data-width", "320")] [],
       .elem "source" [("src", "u2"), ("type", "video/ogg; codecs=\"theora\""),
        ("data-title", "B"), ("data-shorttitle", "b"), ("data-width", "640")] []]]

/-- C8 witness: the element in an empty ancestor context. -/
def exC8WNode : Node := ⟨exC8WElem, []⟩

/-- C8 witness: the record built for it. -/
def exC8WRec : MediaItem :=
  { title := some "File:W.webm", section_id := none, type := "video",
    caption := none, start_time := none, end_time := none, thumb_time := none,
    audio_type := none, gallery_id := none,
    sources := some [
      { url := some "u1", mime := "video/webm", codecs := ["vp8", "vorbis"],
        name := some "A", short_name := some "a", width := some "320", height := none },
      { url := some "u2", mime := "video/ogg", codecs := ["theora"],
        name := some "B", short_name := some "b", width := some "640", height := none }],
    showInGallery := true, original := none }

/-- C9: a record with a title, to exhibit the in-place mutation. -/
def exC9Item : JsObj := [("title", .str "T"), ("type", .str "image")]

/-- C9: a small document for the determinism instance. -/
def exC9Doc : Elem := .elem "body" [] []

/-- C10: an enclosing section whose declared id does not parse. -/
def exC10Sec : Elem := .elem "section" [("data-mw-section-id", "abc")] []

/-- C10: an image figure. -/
def exC10Fig : Elem :=
  .elem "figure" [("typeof", "mw:Image")]
    [.elem "img" [("resource", "./File:A.jpg"), ("width", "100"), ("height", "100")] []]

/-- C10: the figure inside the section. -/
def exC10Node : Node := ⟨exC10Fig, [exC10Sec]⟩

/-- C10: the record built for it: section_id present, NaN. -/
def exC10Rec : MediaItem :=
  { title := some "File:A.jpg", section_id := some none, type := "image",
    caption := none, start_time := none, end_time := none, thumb_time := none,
    audio_type := none, gallery_id := none, sources := none,
    showInGallery := true, original := none }

/-- C7 witness elements: one per classification branch. -/
def exC7Image : Elem := .elem "span" [("typeof", "mw:Image/Thumb")] []

/-- C7 witness: a video-typed element. -/
def exC7Video : Elem := .elem "span" [("typeof", "mw:Video")] []

/-- C7 witness: an audio-typed element. -/
def exC7Audio : Elem := .elem "span" [("typeof", "mw:Audio")] []

/-- C7 witness: an element with an unrelated typeof. -/
def exC7Other : Elem := .elem "span" [("typeof", "mw:Transclusion")] []

/-- C7 witness: a media link. -/
def exC7Link : Elem := .elem "a" [("rel", "mw:MediaLink"), ("title", "Example.ogg")] []

/-- C7 witness: a Mathoid image. -/
def exC7Math : Elem := .elem "img" [("class", "mwe-math-fallback-image-inline")] []

/-- C7 witness: a plain element classified by nothing. -/
def exC7None : Elem := .elem "span" [] []

/-! ## Helper lemmas -/

/-- Destructure a successful `Except` bind. -/
theorem except_bind_ok {α β : Type} {x : Except String α} {f : α → Except String β} {b : β}
    (h : (x >>= f) = .ok b) : ∃ a, x = .ok a ∧ f a = .ok b := by
  cases x with
  | error e => simp [Bind.bind, Except.bind] at h
  | ok a => exact ⟨a, rfl, by simpa [Bind.bind, Except.bind] using h⟩

/-- A successful `orThrow` means the option was `some`. -/
theorem orThrow_ok {α : Type} {o : Option α} {msg : String} {a : α}
    (h : orThrow o msg = .ok a) : o = some a := by
  cases o with
  | none => simp [orThrow] at h
  | some x => simpa [orThrow] using h

/-- A successful `mapM` relates inputs and outputs pointwise, in
order. -/
theorem mapM_ok_forall₂ {α β : Type} (f : α → Except String β) :
    ∀ (l : List α) (out : List β), l.mapM f = .ok out →
      List.Forall₂ (fun a b => f a = .ok b) l out := by
  intro l
  induction l with
  | nil =>
    intro out h
    simp only [List.mapM_nil, pure, Except.pure] at h
    cases h
    exact List.Forall₂.nil
  | cons a as ih =>
    intro out h
    simp only [List.mapM_cons] at h
    obtain ⟨b, hb, h⟩ := except_bind_ok h
    obtain ⟨bs, hbs, h⟩ := except_bind_ok h
    simp only [pure, Except.pure, Except.ok.injEq] at h
    subst h
    exact List.Forall₂.cons hb (ih bs hbs)

/-- Destructure a successful extraction into its two stages. -/
theorem getInfo_ok {doc : Elem} {out : List MediaItem}
    (h : getMediaItemInfoFromPage doc = .ok out) :
    ∃ recs, docOrderRecords doc = .ok recs ∧ uniqJs recs = .ok out :=
  except_bind_ok h

/-- Destructure a successful record-list construction. -/
theorem docOrderRecords_ok {doc : Elem} {recs : List MediaItem}
    (h : docOrderRecords doc = .ok recs) :
    ∃ ns, survivingNodes doc = .ok ns ∧ ns.mapM buildRecord = .ok recs :=
  except_bind_ok h

/-- Destructure a successful `buildRecord` into classification, title
resolution and branch data. -/
theorem buildRecord_ok_destruct {n : Node} {m : MediaItem}
    (h : buildRecord n = .ok m) :
    ∃ mt, getMediaType n.elem = some mt ∧
    ∃ t0, titleOf (resourceOf n mt) = .ok t0 ∧
    ∃ b, buildBranch n mt t0 = .ok b ∧ m = mkItem n mt b := by
  unfold buildRecord at h
  obtain ⟨mt, hmt, h⟩ := except_bind_ok h
  obtain ⟨t0, ht0, h⟩ := except_bind_ok h
  obtain ⟨b, hb, h⟩ := except_bind_ok h
  simp only [pure, Except.pure, Except.ok.injEq] at h
  exact ⟨mt, by simpa using orThrow_ok hmt, t0, ht0, b, hb, h.symm⟩

/-- A branch that sets `original` is the math-image branch, which keeps
the default title; and the math-image variant has no resource selector,
so that default title is `none`. -/
theorem buildBranch_original {n : Node} {mt : MediaType} {t0 : Option String}
    {b : BranchData} (h : buildBranch n mt t0 = .ok b) (ho : b.original ≠ none) :
    mt = MediaType.mathImage ∧ b.title = t0 := by
  cases mt with
  | video =>
    unfold buildBranch at h
    simp only [reduceCtorEq, if_true, if_false, reduceIte] at h
    obtain ⟨dmw, hdmw, h⟩ := except_bind_ok h
    obtain ⟨srcs, hsrcs, h⟩ := except_bind_ok h
    simp only [pure, Except.pure, Except.ok.injEq] at h
    rw [← h] at ho
    simp at ho
  | pronunciation =>
    unfold buildBranch at h
    simp only [reduceCtorEq, reduceIte] at h
    obtain ⟨t, ht, h⟩ := except_bind_ok h
    simp only [pure, Except.pure, Except.ok.injEq] at h
    rw [← h] at ho
    simp at ho
  | audio =>
    unfold buildBranch at h
    simp only [reduceCtorEq, reduceIte, pure, Except.pure, Except.ok.injEq] at h
    rw [← h] at ho
    simp at ho
  | mathImage =>
    unfold buildBranch at h
    simp only [reduceCtorEq, reduceIte, pure, Except.pure, Except.ok.injEq] at h
    rw [← h]
    exact ⟨rfl, rfl⟩
  | image =>
    unfold buildBranch at h
    simp only [reduceCtorEq, reduceIte, pure, Except.pure, Except.ok.injEq] at h
    rw [← h] at ho
    simp at ho
  | unknown =>
    unfold buildBranch at h
    simp only [reduceCtorEq, reduceIte, pure, Except.pure, Except.ok.injEq] at h
    rw [← h] at ho
    simp at ho

/-- The video branch keeps the default title and stores the mapped
source descendants. -/
theorem buildBranch_video {n : Node} {t0 : Option String} {b : BranchData}
    (h : buildBranch n MediaType.video t0 = .ok b) :
    b.title = t0 ∧ ∃ srcs, b.sources = some srcs ∧
      (getElementsByTagName n.elem "source").mapM mkSourceRec = .ok srcs := by
  unfold buildBranch at h
  simp only [reduceIte] at h
  obtain ⟨dmw, hdmw, h⟩ := except_bind_ok h
  obtain ⟨srcs, hsrcs, h⟩ := except_bind_ok h
  simp only [pure, Except.pure, Except.ok.injEq] at h
  rw [← h]
  exact ⟨rfl, srcs, rfl, hsrcs⟩

/-- Field description of one successfully built sources entry. -/
theorem mkSourceRec_ok {s : Elem} {r : SourceRec} (h : mkSourceRec s = .ok r) :
    r.url = s.getAttribute "src" ∧
    (∃ ty, s.getAttribute "type" = some ty ∧
      r.mime = (strSplit ty "; ").headD "" ∧
      ∃ seg q, (strSplit ty "; ").get? 1 = some seg ∧
        (strSplit seg "\"").get? 1 = some q ∧ r.codecs = strSplit q ", ") ∧
    r.name = s.getAttribute "data-title" ∧
    r.short_name = s.getAttribute "data-shorttitle" ∧
    r.width = jsOrStr (s.getAttribute "data-file-width") (s.getAttribute "data-width") ∧
    r.height = jsOrStr (s.getAttribute "data-file-height") (s.getAttribute "data-height") := by
  unfold mkSourceRec at h
  obtain ⟨ty, hty, h⟩ := except_bind_ok h
  obtain ⟨seg, hseg, h⟩ := except_bind_ok h
  obtain ⟨q, hq, h⟩ := except_bind_ok h
  simp only [pure, Except.pure, Except.ok.injEq] at h
  have hty2 := orThrow_ok hty
  have hseg2 := orThrow_ok hseg
  have hq2 := orThrow_ok hq
  subst h
  exact ⟨rfl, ⟨ty, hty2, rfl, seg, q, hseg2, hq2, rfl⟩, rfl, rfl, rfl, rfl⟩

/-- Full invariant of the `_.uniq` loop: the output is a subsequence of
the input, every kept record's key is fresh with respect to `seen` and
locates the record as the first input record with that key, every input
record's key is either already seen or represented in the output, and
the output's keys are pairwise distinct. -/
theorem uniqGo_spec :
    ∀ (l : List MediaItem) (seen : List (Option String)) (out : List MediaItem),
    uniqGo seen l = .ok out →
    out.Sublist l ∧
    (∀ m ∈ out, ∃ k, dedupKey m = .ok k ∧ seen.contains k = false ∧
      List.find? (keyIs k) l = some m) ∧
    (∀ r ∈ l, ∃ k, dedupKey r = .ok k ∧
      (seen.contains k = true ∨ ∃ m, m ∈ out ∧ dedupKey m = .ok k)) ∧
    List.Pairwise (fun a b => dedupKey a ≠ dedupKey b) out := by
  intro l
  induction l with
  | nil =>
    intro seen out h
    simp only [uniqGo, pure, Except.pure, Except.ok.injEq] at h
    subst h
    simp
  | cons m ms ih =>
    intro seen out h
    simp only [uniqGo] at h
    cases hk : dedupKey m with
    | error e =>
      rw [hk] at h
      simp [Bind.bind, Except.bind] at h
    | ok k =>
      rw [hk] at h
      simp only [Bind.bind, Except.bind] at h
      by_cases hseen : seen.contains k
      · rw [if_pos hseen] at h
        obtain ⟨hsub, hfind, hsurj, hpw⟩ := ih seen out h
        refine ⟨hsub.cons m, ?_, ?_, hpw⟩
        · intro m2 hm2
          obtain ⟨k2, hk2, hk2seen, hk2find⟩ := hfind m2 hm2
          refine ⟨k2, hk2, hk2seen, ?_⟩
          have hkk2 : k ≠ k2 := by
            intro hkk
            rw [hkk, hk2seen] at hseen
            exact Bool.noConfusion hseen
          have hne : keyIs k2 m = false := by
            simp [keyIs, hk, hkk2]
          simp [List.find?, hne, hk2find]
        · intro r hr
          rcases List.mem_cons.mp hr with hr | hr
          · subst hr
            exact ⟨k, hk, Or.inl hseen⟩
          · exact hsurj r hr
      · rw [if_neg hseen] at h
        cases hrest : uniqGo (k :: seen) ms with
        | error e => rw [hrest] at h; simp at h
        | ok rest =>
          rw [hrest] at h
          simp only [pure, Except.pure, Except.ok.injEq] at h
          subst h
          obtain ⟨hsub, hfind, hsurj, hpw⟩ := ih (k :: seen) rest hrest
          have hseenb : seen.contains k = false := by
            simpa using hseen
          refine ⟨hsub.cons₂ m, ?_, ?_, ?_⟩
          · intro m2 hm2
            rcases List.mem_cons.mp hm2 with hm2 | hm2
            · subst hm2
              refine ⟨k, hk, hseenb, ?_⟩
              have hself : keyIs k m2 = true := by simp [keyIs, hk]
              simp [List.find?, hself]
            · obtain ⟨k2, hk2, hk2seen, hk2find⟩ := hfind m2 hm2
              have hkk2 : k ≠ k2 := by
                intro hkk
                subst hkk
                simp [List.contains_cons] at hk2seen
              have hseenk2 : seen.contains k2 = false := by
                simp [List.contains_cons] at hk2seen
                simpa using hk2seen.2
              refine ⟨k2, hk2, hseenk2, ?_⟩
              have hne : keyIs k2 m = false := by
                simp [keyIs, hk, hkk2]
              simp [List.find?, hne, hk2find]
          · intro r hr
            rcases List.mem_cons.mp hr with hr | hr
            · subst hr
              exact ⟨k, hk, Or.inr ⟨r, List.mem_cons_self r rest, hk⟩⟩
            · obtain ⟨k2, hk2, hc⟩ := hsurj r hr
              rcases hc with hc | hc
              · simp only [List.contains_cons, Bool.or_eq_true] at hc
                rcases hc with hc | hc
                · refine ⟨k2, hk2, Or.inr ⟨m, List.mem_cons_self m rest, ?_⟩⟩
                  have hkeq : k2 = k := by simpa [beq_iff_eq] using hc
                  rw [hk, hkeq]
                · exact ⟨k2, hk2, Or.inl hc⟩
              · obtain ⟨m2, hm2, hm2k⟩ := hc
                exact ⟨k2, hk2, Or.inr ⟨m2, List.mem_cons_of_mem m hm2, hm2k⟩⟩
          · refine List.Pairwise.cons ?_ hpw
            intro b hb
            obtain ⟨k2, hk2, hk2seen, _⟩ := hfind b hb
            have hkk2 : k ≠ k2 := by
              intro hkk
              subst hkk
              simp [List.contains_cons] at hk2seen
            rw [hk, hk2]
            intro hcontra
            exact hkk2 (by injection hcontra)

/-- Replacing the `k1` binding in place leaves lookups of other keys
unchanged. -/
theorem find_swap_ne {o : JsObj} {k1 k : String} {v1 : JVal} (h : k ≠ k1) :
    List.find? (fun p => p.1 = k) (o.map (fun p => if p.1 = k1 then (k1, v1) else p)) =
    List.find? (fun p => p.1 = k) o := by
  induction o with
  | nil => rfl
  | cons p rest ih =>
    simp only [List.map_cons, List.find?]
    by_cases hp : p.1 = k1
    · simp [hp, Ne.symm h, ih]
    · by_cases hpk : p.1 = k
      · simp [hp, hpk, h]
      · simp [hp, hpk, ih]

/-- After replacing the `k` binding in place, looking `k` up finds the
new value (provided the key was present). -/
theorem find_swap_same {o : JsObj} {k : String} {v : JVal}
    (h : objHasKey o k = true) :
    List.find? (fun p => p.1 = k) (o.map (fun p => if p.1 = k then (k, v) else p)) =
    some (k, v) := by
  induction o with
  | nil => simp [objHasKey, List.find?] at h
  | cons p rest ih =>
    simp only [List.map_cons, List.find?]
    by_cases hp : p.1 = k
    · simp [hp]
    · have h2 : objHasKey rest k = true := by
        simpa [objHasKey, List.find?, hp] using h
      simp [hp, ih h2]

/-- Looking up a key other than the one just set sees the old object. -/
theorem objGet_objSet_ne (o : JsObj) {k1 k : String} (v1 : JVal) (h : k ≠ k1) :
    objGet (objSet o k1 v1) k = objGet o k := by
  unfold objSet
  by_cases hh : objHasKey o k1
  · rw [if_pos hh]
    unfold objGet
    rw [find_swap_ne h]
  · rw [if_neg hh]
    unfold objGet
    rw [List.find?_append]
    have hone : List.find? (fun p => p.1 = k) [(k1, v1)] = none := by
      simp [List.find?, Ne.symm h]
    rw [hone]
    cases List.find? (fun p => p.1 = k) o <;> simp

/-- Looking up the key just set sees the new value. -/
theorem objGet_objSet_same (o : JsObj) (k : String) (v : JVal) :
    objGet (objSet o k v) k = v := by
  unfold objSet
  by_cases hh : objHasKey o k
  · rw [if_pos hh]
    unfold objGet
    rw [find_swap_same hh]
    rfl
  · rw [if_neg hh]
    unfold objGet
    rw [List.find?_append]
    have ho : List.find? (fun p => p.1 = k) o = none := by
      unfold objHasKey at hh
      cases hfo : List.find? (fun p => p.1 = k) o with
      | none => rfl
      | some p => rw [hfo] at hh; simp at hh
    rw [ho]
    simp [List.find?]

/-- `Object.assign` with a source lacking key `k` leaves that lookup
unchanged. -/
theorem objGet_objAssign_not_has {entry : JsObj} :
    ∀ (t : JsObj) (k : String), objHasKey entry k = false →
      objGet (objAssign t entry) k = objGet t k := by
  induction entry with
  | nil => intro t k _; rfl
  | cons p rest ih =>
    intro t k h
    have hp : ¬(p.1 = k) := by
      intro hc
      simp [objHasKey, List.find?, hc] at h
    have hrest : objHasKey rest k = false := by
      simpa [objHasKey, List.find?, hp] using h
    have hstep : objAssign t (p :: rest) = objAssign (objSet t p.1 p.2) rest := rfl
    rw [hstep, ih _ k hrest, objGet_objSet_ne _ _ (fun hc => hp hc.symm)]

/-- Head-skip lookup. -/
theorem objGet_cons_ne {p : String × JVal} {rest : JsObj} {k : String}
    (h : ¬(p.1 = k)) : objGet (p :: rest) k = objGet rest k := by
  simp [objGet, List.find?, h]

/-- Head-hit lookup. -/
theorem objGet_cons_eq {p : String × JVal} {rest : JsObj} {k : String}
    (h : p.1 = k) : objGet (p :: rest) k = p.2 := by
  simp [objGet, List.find?, h]

/-- Head-skip key presence. -/
theorem objHasKey_cons_ne {p : String × JVal} {rest : JsObj} {k : String}
    (h : ¬(p.1 = k)) : objHasKey (p :: rest) k = objHasKey rest k := by
  simp [objHasKey, List.find?, h]

/-- Head-hit key presence. -/
theorem objHasKey_cons_eq {p : String × JVal} {rest : JsObj} {k : String}
    (h : p.1 = k) : objHasKey (p :: rest) k = true := by
  simp [objHasKey, List.find?, h]

/-- `Object.assign` with a duplicate-free source carrying key `k` makes
that lookup see the source's value. -/
theorem objGet_objAssign_has {entry : JsObj} :
    ∀ (t : JsObj) (k : String), List.Pairwise (fun p q => p.1 ≠ q.1) entry →
      objHasKey entry k = true →
      objGet (objAssign t entry) k = objGet entry k := by
  induction entry with
  | nil => intro t k _ h; simp [objHasKey, List.find?] at h
  | cons p rest ih =>
    intro t k hnd h
    have hstep : objAssign t (p :: rest) = objAssign (objSet t p.1 p.2) rest := rfl
    by_cases hp : p.1 = k
    · have hall : ∀ q ∈ rest, ¬(q.1 = k) := by
        intro q hq hc
        exact (List.pairwise_cons.mp hnd).1 q hq (by rw [hc, hp])
      have hrest : objHasKey rest k = false := by
        unfold objHasKey
        rw [List.find?_eq_none.mpr (by simpa using hall)]
        rfl
      rw [hstep, objGet_objAssign_not_has _ k hrest, objGet_cons_eq hp, ← hp,
        objGet_objSet_same]
    · have h2 : objHasKey rest k = true := by
        rw [objHasKey_cons_ne hp] at h
        exact h
      rw [hstep, ih _ k (List.pairwise_cons.mp hnd).2 h2, objGet_cons_ne hp]

/-- Deleting the head binding. -/
theorem objDelete_cons_eq {p : String × JVal} {rest : JsObj} {k : String}
    (h : p.1 = k) : objDelete (p :: rest) k = objDelete rest k := by
  simp [objDelete, List.filter_cons, h]

/-- Deleting past the head binding. -/
theorem objDelete_cons_ne {p : String × JVal} {rest : JsObj} {k : String}
    (h : ¬(p.1 = k)) : objDelete (p :: rest) k = p :: objDelete rest k := by
  simp [objDelete, List.filter_cons, h]

/-- Lookup after `delete`. -/
theorem objGet_objDelete (o : JsObj) (k k2 : String) :
    objGet (objDelete o k) k2 = if k2 = k then .undefined else objGet o k2 := by
  induction o with
  | nil => simp [objDelete, objGet, List.find?]
  | cons p rest ih =>
    by_cases hp : p.1 = k
    · rw [objDelete_cons_eq hp, ih]
      by_cases hk2 : k2 = k
      · simp [hk2]
      · have hp2 : ¬(p.1 = k2) := by rw [hp]; exact fun hc => hk2 hc.symm
        rw [if_neg hk2, if_neg hk2, objGet_cons_ne hp2]
    · rw [objDelete_cons_ne hp]
      by_cases hp2 : p.1 = k2
      · have hk2 : ¬(k2 = k) := fun hc => hp (by rw [hp2, hc])
        rw [objGet_cons_eq hp2, if_neg hk2, objGet_cons_eq hp2]
      · rw [objGet_cons_ne hp2, ih]
        by_cases hk2 : k2 = k
        · simp [hk2]
        · rw [if_neg hk2, if_neg hk2, objGet_cons_ne hp2]

/-- Key presence after `delete`. -/
theorem objHasKey_objDelete (o : JsObj) (k k2 : String) :
    objHasKey (objDelete o k) k2 = if k2 = k then false else objHasKey o k2 := by
  induction o with
  | nil => simp [objDelete, objHasKey, List.find?]
  | cons p rest ih =>
    by_cases hp : p.1 = k
    · rw [objDelete_cons_eq hp, ih]
      by_cases hk2 : k2 = k
      · simp [hk2]
      · have hp2 : ¬(p.1 = k2) := by rw [hp]; exact fun hc => hk2 hc.symm
        rw [if_neg hk2, if_neg hk2, objHasKey_cons_ne hp2]
    · rw [objDelete_cons_ne hp]
      by_cases hp2 : p.1 = k2
      · have hk2 : ¬(k2 = k) := fun hc => hp (by rw [hp2, hc])
        rw [objHasKey_cons_eq hp2, if_neg hk2, objHasKey_cons_eq hp2]
      · rw [objHasKey_cons_ne hp2, ih]
        by_cases hk2 : k2 = k
        · simp [hk2]
        · rw [if_neg hk2, if_neg hk2, objHasKey_cons_ne hp2]

/-- An array value is truthy. -/
theorem jsTruthy_of_isArr {v : JVal} (h : isArrVal v = true) : jsTruthy v = true := by
  cases v <;> simp [isArrVal, jsTruthy] at h ⊢

/-- After the final delete steps, lookups of keys other than `title` and
`original` see the merged object. -/
theorem objGet_postprocess (item1 : JsObj) (k : String)
    (hk1 : ¬(k = "title")) (hk2 : ¬(k = "original")) (b : Bool) :
    objGet (if b then objDelete (objDelete item1 "title") "original"
      else objDelete item1 "title") k = objGet item1 k := by
  cases b
  · simp only [Bool.false_eq_true, if_false]
    rw [objGet_objDelete, if_neg hk1]
  · simp only [if_true]
    rw [objGet_objDelete, if_neg hk2, objGet_objDelete, if_neg hk1]

/-- The merged record never carries a `title` key. -/
theorem combineOne_no_title (api : ApiMap) (item : JsObj) :
    objHasKey (combineOne api item) "title" = false := by
  unfold combineOne
  set item1 := (if jsTruthy (objGet item "title") then
      match apiLookup api (jvalToKeyString (objGet item "title")) with
      | some entry => objAssign item entry
      | none => item
    else item) with hitem1
  by_cases hb : jsTruthy (objGet (objDelete item1 "title") "sources")
  · rw [if_pos hb, objHasKey_objDelete]
    rw [if_neg (by decide), objHasKey_objDelete, if_pos rfl]
  · rw [if_neg hb, objHasKey_objDelete, if_pos rfl]

/-- If the merged record carries `sources` as an array, it carries no
`original` key. -/
theorem combineOne_sources_original (api : ApiMap) (item : JsObj)
    (h : isArrVal (objGet (combineOne api item) "sources") = true) :
    objHasKey (combineOne api item) "original" = false := by
  unfold combineOne at h ⊢
  set item1 := (if jsTruthy (objGet item "title") then
      match apiLookup api (jvalToKeyString (objGet item "title")) with
      | some entry => objAssign item entry
      | none => item
    else item) with hitem1
  by_cases hb : jsTruthy (objGet (objDelete item1 "title") "sources")
  · rw [if_pos hb, objHasKey_objDelete, if_pos rfl]
  · rw [if_neg hb] at h
    exact absurd (jsTruthy_of_isArr h) hb

/-- A record whose truthy string title has a duplicate-free entry in the
map receives each of that entry's fields (other than the join key and
the possibly deleted `original`). -/
theorem combineOne_merges (api : ApiMap) (item : JsObj) {t : String} {entry : JsObj}
    (ht : objGet item "title" = .str t) (ht0 : t ≠ "")
    (hl : apiLookup api t = some entry)
    (hnd : List.Pairwise (fun p q => p.1 ≠ q.1) entry)
    (k : String) (hk : objHasKey entry k = true)
    (hk1 : k ≠ "title") (hk2 : k ≠ "original") :
    objGet (combineOne api item) k = objGet entry k := by
  unfold combineOne
  rw [ht]
  have htr : jsTruthy (JVal.str t) = true := by simp [jsTruthy, ht0]
  rw [htr]
  simp only [if_true]
  have hks : jvalToKeyString (JVal.str t) = t := rfl
  rw [hks, hl]
  rw [objGet_postprocess (objAssign item entry) k hk1 hk2]
  exact objGet_objAssign_has item k hnd hk

/-- A record whose title is falsy or absent from the map passes through
with its own fields (other than the join key and the possibly deleted
`original`). -/
theorem combineOne_passthrough (api : ApiMap) (item : JsObj)
    (h : jsTruthy (objGet item "title") = false ∨
      apiLookup api (jvalToKeyString (objGet item "title")) = none)
    (k : String) (hk1 : k ≠ "title") (hk2 : k ≠ "original") :
    objGet (combineOne api item) k = objGet item k := by
  unfold combineOne
  rcases h with h | h
  · rw [h]
    simp only [Bool.false_eq_true, if_false]
    exact objGet_postprocess item k hk1 hk2 _
  · by_cases hb : jsTruthy (objGet item "title")
    · rw [hb]
      simp only [if_true]
      rw [h]
      exact objGet_postprocess item k hk1 hk2 _
    · rw [Bool.eq_false_iff.mpr hb]
      simp only [Bool.false_eq_true, if_false]
      exact objGet_postprocess item k hk1 hk2 _

/-! ## Claim theorems -/

/-- C1: the claim states that a Video element carrying a data-mw
attribute that is not valid JSON still yields a record list, with only
that element's time fields unset.  The code calls `JSON.parse` on the
attribute unguarded, so such an element aborts the whole extraction
with a thrown SyntaxError; only an absent data-mw attribute (which
parses to the falsy `null`) degrades gracefully into unset time fields.
This theorem evaluates the embedded code at the failing input and at
the absent-attribute input. -/
theorem c1_malformed_datamw_aborts_extraction :
    getMediaItemInfoFromPage exC1Bad =
      Except.error "SyntaxError: Expected string property name in JSON" ∧
    getMediaItemInfoFromPage exC1Good = Except.ok [exC1GoodRec] ∧
    exC1GoodRec.start_time = none ∧ exC1GoodRec.end_time = none ∧
    exC1GoodRec.thumb_time = none :=
  ⟨rfl, rfl, rfl, rfl, rfl⟩

/-- C2 counterexample: the claim states that a missing width or height
attribute makes the size comparison fail in the element's favour, the
element being kept.  In the code, `null < 48` coerces `null` to 0 and
is true, so an img with no width attribute is judged too small and its
element is excluded: on a document whose only candidate is such an
image, the extraction returns the empty list. -/
theorem c2_missing_width_excludes :
    isTooSmall exC2Img = true ∧
    getMediaItemInfoFromPage exC2Doc = Except.ok [] :=
  ⟨rfl, rfl⟩

/-- C2 amended: an absent width or height attribute coerces to 0 and
makes isTooSmall true (the element is excluded); a present attribute
whose `ToNumber` is `NaN` makes its comparison false; when both
attributes have finite numeric values a/b and c/d, isTooSmall is true
exactly when that value is below 48. -/
theorem c2_isTooSmall_coercion (img : Elem) :
    (img.getAttribute "width" = none → isTooSmall img = true) ∧
    (img.getAttribute "height" = none → isTooSmall img = true) ∧
    (toNumberAttr (img.getAttribute "width") = .nan ∧
      toNumberAttr (img.getAttribute "height") = .nan → isTooSmall img = false) ∧
    (∀ a b c d, toNumberAttr (img.getAttribute "width") = .num a b →
      toNumberAttr (img.getAttribute "height") = .num c d →
      (isTooSmall img = true ↔ (a * 1 < 48 * (b : Int) ∨ c * 1 < 48 * (d : Int)))) := by
  refine ⟨?_, ?_, ?_, ?_⟩
  · intro h
    unfold isTooSmall jsLtNat
    rw [h]
    simp [toNumberAttr, jsLtB, MIN_IMAGE_SIZE]
  · intro h
    unfold isTooSmall jsLtNat
    rw [h]
    simp [toNumberAttr, jsLtB, MIN_IMAGE_SIZE]
  · intro h
    unfold isTooSmall jsLtNat
    rw [h.1, h.2]
    simp [jsLtB]
  · intro a b c d hw hh
    unfold isTooSmall jsLtNat
    rw [hw, hh]
    simp [jsLtB, MIN_IMAGE_SIZE]

/-- C2 witness: instances of the amended statement — a 100 by 30 image
is too small, and an image with no width attribute is too small. -/
theorem c2_isTooSmall_coercion_witness :
    isTooSmall (Elem.elem "img" [("width", "100"), ("height", "30")] []) = true ∧
    isTooSmall (Elem.elem "img" [("resource", "./File:A.jpg"), ("height", "100")] []) = true :=
  ⟨((c2_isTooSmall_coercion (Elem.elem "img" [("width", "100"), ("height", "30")] [])).2.2.2
      100 1 30 1 rfl rfl).mpr (Or.inr (by decide)),
   (c2_isTooSmall_coercion
      (Elem.elem "img" [("resource", "./File:A.jpg"), ("height", "100")] [])).1 rfl⟩

/-- C3: the claim states that a candidate whose variant expects a
resource element that does not resolve is excluded from the candidate
list without raising an error for the document.  In the code, an
mw:Image candidate with no img descendant reaches `isTooSmall(null)`,
which dereferences `null` and throws, aborting the whole extraction;
and an mw:Video candidate with no video descendant is not excluded at
all — it survives the filter.  This theorem evaluates the embedded
code at both inputs. -/
theorem c3_unresolved_resource_throws :
    getMediaItemInfoFromPage exC3Img =
      Except.error "TypeError: Cannot read property getAttribute of null" ∧
    survivingNodes exC3VidDoc = Except.ok [⟨exC3Vid, [exC3VidDoc]⟩] :=
  ⟨rfl, rfl⟩

/-- C7: classification priority — a truthy `typeof` attribute is
switched on its first 8 characters (`mw:Image` / `mw:Video` /
`mw:Audio` to the respective variant, anything else to Unknown); an
absent `typeof` falls through to the `rel="mw:MediaLink"` check
(Pronunciation), then to the Mathoid class check (MathImage); an
element matching none of these is not classified. -/
theorem c7_getMediaType_priority (e : Elem) :
    (∀ t, e.getAttribute "typeof" = some t → t ≠ "" →
      ((strTakeChars t 8 = "mw:Image" → getMediaType e = some MediaType.image) ∧
       (strTakeChars t 8 = "mw:Video" → getMediaType e = some MediaType.video) ∧
       (strTakeChars t 8 = "mw:Audio" → getMediaType e = some MediaType.audio) ∧
       (strTakeChars t 8 ≠ "mw:Image" → strTakeChars t 8 ≠ "mw:Video" →
        strTakeChars t 8 ≠ "mw:Audio" → getMediaType e = some MediaType.unknown))) ∧
    (e.getAttribute "typeof" = none →
      ((e.getAttribute "rel" = some "mw:MediaLink" →
        getMediaType e = some MediaType.pronunciation) ∧
       (e.getAttribute "rel" ≠ some "mw:MediaLink" → isMathoidImage e = true →
        getMediaType e = some MediaType.mathImage) ∧
       (e.getAttribute "rel" ≠ some "mw:MediaLink" → isMathoidImage e = false →
        getMediaType e = none))) := by
  constructor
  · intro t ht ht0
    refine ⟨?_, ?_, ?_, ?_⟩
    · intro h8
      unfold getMediaType
      rw [ht]
      simp [truthyStr, ht0, h8]
    · intro h8
      unfold getMediaType
      rw [ht]
      simp [truthyStr, ht0, h8]
    · intro h8
      unfold getMediaType
      rw [ht]
      simp [truthyStr, ht0, h8]
    · intro h1 h2 h3
      unfold getMediaType
      rw [ht]
      simp [truthyStr, ht0, h1, h2, h3]
  · intro ht
    refine ⟨?_, ?_, ?_⟩
    · intro hrel
      unfold getMediaType
      rw [ht, hrel]
      simp [truthyStr]
    · intro hrel hmath
      unfold getMediaType
      rw [ht]
      simp [truthyStr, hrel, hmath]
    · intro hrel hmath
      unfold getMediaType
      rw [ht]
      simp [truthyStr, hrel, hmath]

/-- C7 witness: each classification branch at a concrete element. -/
theorem c7_getMediaType_priority_witness :
    getMediaType exC7Image = some MediaType.image ∧
    getMediaType exC7Video = some MediaType.video ∧
    getMediaType exC7Audio = some MediaType.audio ∧
    getMediaType exC7Other = some MediaType.unknown ∧
    getMediaType exC7Link = some MediaType.pronunciation ∧
    getMediaType exC7Math = some MediaType.mathImage ∧
    getMediaType exC7None = none :=
  ⟨((c7_getMediaType_priority exC7Image).1 "mw:Image/Thumb" rfl (by decide)).1 rfl,
   ((c7_getMediaType_priority exC7Video).1 "mw:Video" rfl (by decide)).2.1 rfl,
   ((c7_getMediaType_priority exC7Audio).1 "mw:Audio" rfl (by decide)).2.2.1 rfl,
   ((c7_getMediaType_priority exC7Other).1 "mw:Transclusion" rfl (by decide)).2.2.2
     (by decide) (by decide) (by decide),
   ((c7_getMediaType_priority exC7Link).2 rfl).1 rfl,
   ((c7_getMediaType_priority exC7Math).2 rfl).2.1 (by decide) rfl,
   ((c7_getMediaType_priority exC7None).2 rfl).2.2 (by decide) rfl⟩

/-- Every element of the right list of a `Forall₂` has a related
element on the left. -/
theorem forall₂_mem_right {α β : Type} {P : α → β → Prop} :
    ∀ {l1 : List α} {l2 : List β}, List.Forall₂ P l1 l2 →
      ∀ b ∈ l2, ∃ a ∈ l1, P a b := by
  intro l1 l2 h
  induction h with
  | nil => intro b hb; cases hb
  | cons hab htl ih =>
    intro b hb
    rcases List.mem_cons.mp hb with hb | hb
    · subst hb
      exact ⟨_, List.mem_cons_self _ _, hab⟩
    · obtain ⟨a, ha, hPab⟩ := ih b hb
      exact ⟨a, List.mem_cons_of_mem _ ha, hPab⟩

/-- C4: the returned list is ordered by the document-order position of
each record's first surviving source element: the document-order record
list `recs` is built by mapping `buildRecord` over the surviving nodes
in document order, the output is a subsequence of `recs`, and each
output record sits at the position of the first record carrying its
key. -/
theorem c4_output_document_order (doc : Elem) (recs out : List MediaItem)
    (h1 : docOrderRecords doc = .ok recs)
    (h2 : getMediaItemInfoFromPage doc = .ok out) :
    (∃ ns, survivingNodes doc = .ok ns ∧
      List.Forall₂ (fun n r => buildRecord n = .ok r) ns recs) ∧
    out.Sublist recs ∧
    (∀ m ∈ out, ∃ k, dedupKey m = .ok k ∧ List.find? (keyIs k) recs = some m) := by
  obtain ⟨recs2, h1b, hu⟩ := getInfo_ok h2
  rw [h1] at h1b
  injection h1b with h1b
  subst h1b
  obtain ⟨ns, hns, hmap⟩ := docOrderRecords_ok h1
  obtain ⟨hsub, hfind, hsurj, hpw⟩ := uniqGo_spec recs [] out hu
  exact ⟨⟨ns, hns, mapM_ok_forall₂ buildRecord ns recs hmap⟩, hsub,
    fun m hm => by
      obtain ⟨k, hk, _, hfk⟩ := hfind m hm
      exact ⟨k, hk, hfk⟩⟩

/-- C4 witness: the order property instantiated on a two-image
document. -/
theorem c4_output_document_order_witness :
    docOrderRecords exC4Doc = Except.ok [exC4RecA, exC4RecB] ∧
    getMediaItemInfoFromPage exC4Doc = Except.ok [exC4RecA, exC4RecB] ∧
    List.Sublist [exC4RecA, exC4RecB] [exC4RecA, exC4RecB] ∧
    (∀ m ∈ [exC4RecA, exC4RecB], ∃ k, dedupKey m = .ok k ∧
      List.find? (keyIs k) [exC4RecA, exC4RecB] = some m) :=
  ⟨rfl, rfl,
   (c4_output_document_order exC4Doc [exC4RecA, exC4RecB] [exC4RecA, exC4RecB] rfl rfl).2.1,
   (c4_output_document_order exC4Doc [exC4RecA, exC4RecB] [exC4RecA, exC4RecB] rfl rfl).2.2⟩

/-- C5: deduplication — the output records are input records taken
verbatim (dropped, not merged), their keys are pairwise distinct, every
extracted record's key is represented, each output record is the first
document-order record with its key, and the key is the title when the
title is present, otherwise the `source` of `original`. -/
theorem c5_dedup_by_title_or_original (doc : Elem) (recs out : List MediaItem)
    (h1 : docOrderRecords doc = .ok recs)
    (h2 : getMediaItemInfoFromPage doc = .ok out) :
    (∀ m ∈ out, m ∈ recs) ∧
    List.Pairwise (fun a b => dedupKey a ≠ dedupKey b) out ∧
    (∀ r ∈ recs, ∃ k, dedupKey r = .ok k ∧ ∃ m, m ∈ out ∧ dedupKey m = .ok k) ∧
    (∀ m ∈ out, ∀ t, m.title = some t → dedupKey m = .ok (some t)) ∧
    (∀ m ∈ out, m.title = none → ∃ o, m.original = some o ∧ dedupKey m = .ok o.source) ∧
    (∀ m ∈ out, ∃ k, dedupKey m = .ok k ∧ List.find? (keyIs k) recs = some m) := by
  obtain ⟨recs2, h1b, hu⟩ := getInfo_ok h2
  rw [h1] at h1b
  injection h1b with h1b
  subst h1b
  obtain ⟨ns, hns, hmap⟩ := docOrderRecords_ok h1
  have hf2 := mapM_ok_forall₂ buildRecord ns recs hmap
  obtain ⟨hsub, hfind, hsurj, hpw⟩ := uniqGo_spec recs [] out hu
  have hmem : ∀ m ∈ out, m ∈ recs := fun m hm => hsub.mem hm
  refine ⟨hmem, hpw, ?_, ?_, ?_, ?_⟩
  · intro r hr
    obtain ⟨k, hk, hc⟩ := hsurj r hr
    rcases hc with hc | hc
    · simp [List.contains] at hc
    · exact ⟨k, hk, hc⟩
  · intro m hm t ht
    by_cases ht0 : t = ""
    · subst ht0
      obtain ⟨k, hk, _, _⟩ := hfind m hm
      obtain ⟨n, hn, hbr⟩ := forall₂_mem_right hf2 m (hmem m hm)
      obtain ⟨mt, hmt, t0, htt0, b, hb, hmk⟩ := buildRecord_ok_destruct hbr
      have htitle : m.title = b.title := by rw [hmk]; rfl
      have horig : m.original = b.original := by rw [hmk]; rfl
      have hkey : dedupKey m = .ok k := hk
      unfold dedupKey at hkey
      rw [ht] at hkey
      rw [show truthyStr (some "") = false from rfl] at hkey
      simp only [Bool.false_eq_true, if_false] at hkey
      cases ho : m.original with
      | none => rw [ho] at hkey; simp at hkey
      | some o =>
        have hbo : b.original ≠ none := by rw [← horig, ho]; simp
        obtain ⟨hmtm, hbt⟩ := buildBranch_original hb hbo
        subst hmtm
        have hres : resourceOf n MediaType.mathImage = none := rfl
        rw [hres] at htt0
        have ht0n : t0 = none := by
          simpa [titleOf, pure, Except.pure] using htt0.symm
        rw [ht0n] at hbt
        rw [htitle, hbt] at ht
        exact Option.noConfusion ht
    · unfold dedupKey
      rw [ht]
      have htr : truthyStr (some t) = true := by simp [truthyStr, ht0]
      rw [htr]
      simp [pure, Except.pure, ht]
  · intro m hm ht
    obtain ⟨k, hk, _, _⟩ := hfind m hm
    have hkey : dedupKey m = .ok k := hk
    unfold dedupKey at hkey
    rw [ht] at hkey
    rw [show truthyStr (none : Option String) = false from rfl] at hkey
    simp only [Bool.false_eq_true, if_false] at hkey
    cases ho : m.original with
    | none => rw [ho] at hkey; simp at hkey
    | some o =>
      refine ⟨o, rfl, ?_⟩
      unfold dedupKey
      rw [ht, ho]
      simp [truthyStr, pure, Except.pure]
  · intro m hm
    obtain ⟨k, hk, _, hfk⟩ := hfind m hm
    exact ⟨k, hk, hfk⟩

/-- C5 witness: the dedup property instantiated on a document with two
same-title images (the duplicate carrying a caption) and a third
distinct image. -/
theorem c5_dedup_by_title_or_original_witness :
    docOrderRecords exC5Doc = Except.ok [exC5RecA, exC5RecA2, exC5RecB] ∧
    getMediaItemInfoFromPage exC5Doc = Except.ok [exC5RecA, exC5RecB] ∧
    (∀ m ∈ [exC5RecA, exC5RecB], m ∈ [exC5RecA, exC5RecA2, exC5RecB]) ∧
    List.Pairwise (fun a b => dedupKey a ≠ dedupKey b) [exC5RecA, exC5RecB] ∧
    (∀ m ∈ [exC5RecA, exC5RecB], ∃ k, dedupKey m = .ok k ∧
      List.find? (keyIs k) [exC5RecA, exC5RecA2, exC5RecB] = some m) :=
  ⟨rfl, rfl,
   (c5_dedup_by_title_or_original exC5Doc [exC5RecA, exC5RecA2, exC5RecB]
     [exC5RecA, exC5RecB] rfl rfl).1,
   (c5_dedup_by_title_or_original exC5Doc [exC5RecA, exC5RecA2, exC5RecB]
     [exC5RecA, exC5RecB] rfl rfl).2.1,
   (c5_dedup_by_title_or_original exC5Doc [exC5RecA, exC5RecA2, exC5RecB]
     [exC5RecA, exC5RecB] rfl rfl).2.2.2.2.2⟩

/-- C6: after the merge, no record carries a `title` key; a merged
record carrying `sources` (an array, as extraction produces it) carries
no `original` key; a record whose truthy title has a (duplicate-free)
entry in the map receives that entry's fields by shallow merge; and a
record whose title is falsy or absent from the map is returned with its
own directly extracted fields — the merge is total, so it never fails
for that reason. -/
theorem c6_combineResponses_merge (api : ApiMap) (l : List JsObj) :
    (∀ o ∈ combineResponses api l, objHasKey o "title" = false) ∧
    (∀ o ∈ combineResponses api l, isArrVal (objGet o "sources") = true →
      objHasKey o "original" = false) ∧
    List.Forall₂ (fun item o =>
      (∀ t entry, objGet item "title" = .str t → t ≠ "" →
        apiLookup api t = some entry →
        List.Pairwise (fun p q => p.1 ≠ q.1) entry →
        ∀ k, objHasKey entry k = true → k ≠ "title" → k ≠ "original" →
          objGet o k = objGet entry k) ∧
      ((jsTruthy (objGet item "title") = false ∨
        apiLookup api (jvalToKeyString (objGet item "title")) = none) →
        ∀ k, k ≠ "title" → k ≠ "original" → objGet o k = objGet item k))
      l (combineResponses api l) := by
  refine ⟨?_, ?_, ?_⟩
  · intro o ho
    obtain ⟨item, _, hoi⟩ := List.mem_map.mp ho
    rw [← hoi]
    exact combineOne_no_title api item
  · intro o ho harr
    obtain ⟨item, _, hoi⟩ := List.mem_map.mp ho
    rw [← hoi] at harr ⊢
    exact combineOne_sources_original api item harr
  · unfold combineResponses
    induction l with
    | nil => exact List.Forall₂.nil
    | cons item rest ih =>
      refine List.Forall₂.cons ⟨?_, ?_⟩ ih
      · intro t entry ht ht0 hl hnd k hk hk1 hk2
        exact combineOne_merges api item ht ht0 hl hnd k hk hk1 hk2
      · intro h k hk1 hk2
        exact combineOne_passthrough api item h k hk1 hk2

/-- C6 witness: the spec's merge scenario — a record titled
File:Foo.jpg merged against a map holding a description for it ends up
with the description and no title key. -/
theorem c6_combineResponses_merge_witness :
    objHasKey ((combineResponses exC6Api [exC6Item]).headD []) "title" = false ∧
    objGet ((combineResponses exC6Api [exC6Item]).headD []) "description" = .str "A foo" := by
  have h := c6_combineResponses_merge exC6Api [exC6Item]
  constructor
  · exact h.1 _ (by exact List.mem_cons_self _ _)
  · have hf := h.2.2
    cases hf with
    | cons hpair _ =>
      have := hpair.1 "File:Foo.jpg" [("description", .str "A foo")]
        rfl (by decide) rfl (by simp) "description" rfl
        (by decide) (by decide)
      simpa using this

/-- C8 counterexample: the claim says each sources entry's mime is the
part of the type attribute before the first semicolon.  The code splits
on the two-character separator "; ", so a type attribute whose first
semicolon is not followed by a space yields a mime that still contains
that semicolon. -/
theorem c8_mime_first_semicolon_counterexample :
    getMediaItemInfoFromPage exC8Doc = Except.ok [exC8Rec] ∧
    exC8Rec.sources = some [exC8Src] ∧
    exC8Src.mime = "video/webm;x" ∧
    specMimeBeforeSemicolon "video/webm;x; codecs=\"vp8\"" = "video/webm" ∧
    exC8Src.mime ≠ specMimeBeforeSemicolon "video/webm;x; codecs=\"vp8\"" :=
  ⟨rfl, rfl, rfl, rfl, by decide⟩

/-- C8 amended: for an element classified as Video, the record's
sources list the element's source descendants in document order; each
entry takes url from src, mime as the first segment of the type
attribute split on the separator "; ", codecs as the comma-space split
of the content between the first pair of double quotes in the second
"; " segment (the extraction throws if the type attribute is absent or
lacks those segments), name and short_name from data-title and
data-shorttitle, and width/height preferring data-file-width and
data-file-height with JS falsy fallback to data-width and
data-height. -/
theorem c8_video_sources_extraction (n : Node) (m : MediaItem)
    (hmt : getMediaType n.elem = some MediaType.video)
    (h : buildRecord n = .ok m) :
    ∃ srcs, m.sources = some srcs ∧
      List.Forall₂ (fun (s : Elem) (r : SourceRec) =>
        r.url = s.getAttribute "src" ∧
        (∃ ty, s.getAttribute "type" = some ty ∧
          r.mime = (strSplit ty "; ").headD "" ∧
          ∃ seg q, (strSplit ty "; ").get? 1 = some seg ∧
            (strSplit seg "\"").get? 1 = some q ∧ r.codecs = strSplit q ", ") ∧
        r.name = s.getAttribute "data-title" ∧
        r.short_name = s.getAttribute "data-shorttitle" ∧
        r.width = jsOrStr (s.getAttribute "data-file-width") (s.getAttribute "data-width") ∧
        r.height = jsOrStr (s.getAttribute "data-file-height") (s.getAttribute "data-height"))
        (getElementsByTagName n.elem "source") srcs := by
  obtain ⟨mt, hmt2, t0, ht0, b, hb, hm⟩ := buildRecord_ok_destruct h
  rw [hmt] at hmt2
  injection hmt2 with hmt2
  subst hmt2
  obtain ⟨hbt, srcs, hbs, hmapM⟩ := buildBranch_video hb
  refine ⟨srcs, ?_, ?_⟩
  · rw [hm]
    exact hbs
  · exact (mapM_ok_forall₂ mkSourceRec _ _ hmapM).imp (fun _ _ hsr => mkSourceRec_ok hsr)

/-- C8 witness: the amended statement instantiated on a video with two
well-formed sources carrying distinct data-width values. -/
theorem c8_video_sources_extraction_witness :
    buildRecord exC8WNode = Except.ok exC8WRec ∧
    (∃ srcs, exC8WRec.sources = some srcs ∧
      List.Forall₂ (fun (s : Elem) (r : SourceRec) =>
        r.url = s.getAttribute "src" ∧
        (∃ ty, s.getAttribute "type" = some ty ∧
          r.mime = (strSplit ty "; ").headD "" ∧
          ∃ seg q, (strSplit ty "; ").get? 1 = some seg ∧
            (strSplit seg "\"").get? 1 = some q ∧ r.codecs = strSplit q ", ") ∧
        r.name = s.getAttribute "data-title" ∧
        r.short_name = s.getAttribute "data-shorttitle" ∧
        r.width = jsOrStr (s.getAttribute "data-file-width") (s.getAttribute "data-width") ∧
        r.height = jsOrStr (s.getAttribute "data-file-height") (s.getAttribute "data-height"))
        (getElementsByTagName exC8WNode.elem "source") srcs) :=
  ⟨rfl, c8_video_sources_extraction exC8WNode exC8WRec rfl rfl⟩

/-- C9 counterexample: the claim says combineResponses does not mutate
its input records.  Each map callback mutates its record in place
(Object.assign onto it, delete on it) and returns that same object, so
after the call the input array's records are the merged ones: for a
record carrying a title, the input record observed after the call has
lost its title key. -/
theorem c9_no_mutation_counterexample :
    combineResponsesInputAfter [] [exC9Item] ≠ [exC9Item] := by
  intro h
  have h2 := congrArg (fun xs => xs.map (fun o => objHasKey o "title")) h
  exact absurd h2 (by decide)

/-- C9 amended: combineResponses mutates its input records in place —
after the call the input array holds exactly the merged records — while
the extraction-and-merge pipeline remains deterministic: equal inputs
yield equal outputs. -/
theorem c9_mutation_and_determinism :
    (∀ (api : ApiMap) (l : List JsObj),
      combineResponsesInputAfter api l = combineResponses api l) ∧
    (∀ (d1 d2 : Elem) (a1 a2 : ApiMap), d1 = d2 → a1 = a2 →
      extractAndMerge d1 a1 = extractAndMerge d2 a2) :=
  ⟨fun _ _ => rfl, fun d1 d2 a1 a2 hd ha => by rw [hd, ha]⟩

/-- C9 witness: the amended statement at concrete inputs. -/
theorem c9_mutation_and_determinism_witness :
    combineResponsesInputAfter [] [exC9Item] = combineResponses [] [exC9Item] ∧
    extractAndMerge exC9Doc [] = extractAndMerge exC9Doc [] :=
  ⟨c9_mutation_and_determinism.1 [] [exC9Item],
   c9_mutation_and_determinism.2 exC9Doc exC9Doc [] [] rfl rfl⟩

/-- C10: a record's section_id is the nearest enclosing section's
declared id passed through parseInt: absent exactly when there is no
enclosing section element, and present with value NaN (modelled
`some none`) when the section exists but its data-mw-section-id
attribute is missing or has no parsable integer prefix. -/
theorem c10_section_id_nan_vs_absent (n : Node) (m : MediaItem)
    (h : buildRecord n = .ok m) :
    m.section_id = (n.closest (fun e => e.tag = "section")).map
      (fun s => parseIntJS (s.getAttribute "data-mw-section-id")) ∧
    (m.section_id = none ↔ n.closest (fun e => e.tag = "section") = none) ∧
    (∀ s, n.closest (fun e => e.tag = "section") = some s →
      s.getAttribute "data-mw-section-id" = none → m.section_id = some none) ∧
    (∀ s v, n.closest (fun e => e.tag = "section") = some s →
      s.getAttribute "data-mw-section-id" = some v → parseIntCore v = none →
      m.section_id = some none) := by
  obtain ⟨mt, hmt, t0, ht0, b, hb, hm⟩ := buildRecord_ok_destruct h
  have hsec : m.section_id = (n.closest (fun e => e.tag = "section")).map
      (fun s => parseIntJS (s.getAttribute "data-mw-section-id")) := by
    rw [hm]; rfl
  refine ⟨hsec, ?_, ?_, ?_⟩
  · rw [hsec]
    cases n.closest (fun e => e.tag = "section") <;> simp
  · intro s hs hattr
    rw [hsec, hs]
    simp [parseIntJS, hattr]
    rfl
  · intro s v hs hattr hcore
    rw [hsec, hs]
    simp [parseIntJS, hattr, hcore]

/-- C10 witness: a figure inside a section whose data-mw-section-id is
"abc" gets section_id present with NaN. -/
theorem c10_section_id_nan_vs_absent_witness :
    buildRecord exC10Node = Except.ok exC10Rec ∧
    Node.closest exC10Node (fun e => e.tag = "section") = some exC10Sec ∧
    exC10Sec.getAttribute "data-mw-section-id" = some "abc" ∧
    parseIntCore "abc" = none ∧
    exC10Rec.section_id = some none :=
  ⟨rfl, rfl, rfl, rfl,
   (c10_section_id_nan_vs_absent exC10Node exC10Rec rfl).2.2.2 exC10Sec "abc" rfl rfl rfl⟩
